import Mathlib

/-!
# devd: verification development for `cli.go`

A shallow embedding of the composition root of the devd development server
(`package devd`, file `cli.go`): port selection, URL formatting, the
host-port stripping wrapper, the per-request handler built by `devdHandler`,
and the start-up sequence `Devd.Serve`.

Conventions of the embedding.

* Go `error` values are represented by their message (`String`); a `nil`
  error is the `ok` branch of `Except`.
* Calls into collaborators that are not part of `cli.go` (the network stack,
  the `regexp` library, `RouteCollection.Set`, the file watchers, the TLS
  loader, `slowdown.MaxRate`) are fields of an environment record `Env`.
* Effects are recorded as traces: a function that performs calls returns the
  list of calls it made, in order, next to its result.
* Go `int` is `Int`; the two places where a machine representation is
  observable (the `time.Duration` product and the `float64` conversion) are
  modelled with explicit 64-bit wrap-around and explicit rounding.
-/

namespace Cli

/-! ## Constants -/

/-- The current version of devd. -/
def Version : String := "0.2"

/-- Lower end of the automatic port range. -/
def portLow : Int := 8000

/-- Upper end (exclusive) of the automatic port range. -/
def portHigh : Int := 10000

/-! ## Listeners and port selection -/

/-- Rendering of `tls.Config` as far as `cli.go` fills it in. -/
structure TLSConfig where
  NextProtos : List String
  Certificates : List String
  deriving DecidableEq, Repr

/-- A `net.Listener`: a bound TCP listener, possibly wrapped by
`tls.NewListener` and by `slowdown.NewSlowListener`. The rates of the slow
listener are the values of the two `float64` arguments (always integral
here). -/
inductive Listener where
  | tcp (laddr : String) (port : Int)
  | tls (inner : Listener) (config : TLSConfig)
  | slow (inner : Listener) (upRate downRate : Int)
  deriving DecidableEq, Repr

/-- The port of `hl.Addr().(*net.TCPAddr)`; wrappers forward `Addr`. -/
def Listener.Port : Listener → Int
  | .tcp _ port => port
  | .tls inner _ => inner.Port
  | .slow inner _ _ => inner.Port

/-- The string of `hl.Addr()`; wrappers forward `Addr`. -/
def Listener.AddrString : Listener → String
  | .tcp laddr _ => laddr
  | .tls inner _ => inner.AddrString
  | .slow inner _ _ => inner.AddrString

/-- The address handed to `net.Listen`: `fmt.Sprintf("%v:%d", addr, port)`. -/
def listenAddr (addr : String) (port : Int) : String :=
  addr ++ ":" ++ toString port

/-- The loop `for i := low; i < high; i++` of `pickPort`, with the number of
remaining iterations as the recursion argument. Returns the ports on which
`net.Listen` was called, in order, and the result. -/
def pickPortLoop (netListen : String → Except String Listener) (addr : String) :
    Nat → Int → List Int × Except String Listener
  | 0, _ => ([], .error "Could not find open port.")
  | n + 1, i =>
    match netListen (listenAddr addr i) with
    | .ok hl => ([i], .ok hl)
    | .error _ =>
      let rest := pickPortLoop netListen addr n (i + 1)
      (i :: rest.1, rest.2)

/-- The function `pickPort(addr, low, high, tls)`. Returns the ports on which
`net.Listen` was called, in order, and the result. -/
def pickPort (netListen : String → Except String Listener) (addr : String)
    (low high : Int) (tls : Bool) : List Int × Except String Listener :=
  let firstTry : Int := if tls then 443 else 80
  match netListen (listenAddr addr firstTry) with
  | .ok hl => ([firstTry], .ok hl)
  | .error _ =>
    let rest := pickPortLoop netListen addr (high - low).toNat low
    (firstTry :: rest.1, rest.2)

/-! ## URL formatting -/

/-- The function `formatURL(tls, httpIP, port)`. -/
def formatURL (tls : Bool) (httpIP : String) (port : Int) : String :=
  let proto := if tls then "https" else "http"
  let host := if httpIP = "0.0.0.0" ∨ httpIP = "127.0.0.1" then "devd.io" else httpIP
  if port = 443 ∧ tls = true then "https://" ++ host
  else if port = 80 ∧ tls = false then "http://" ++ host
  else proto ++ "://" ++ host ++ ":" ++ toString port

/-! ## Requests and handlers -/

/-- The fields of `http.Request` that `cli.go` and `http.StripPrefix` read or
write. `URLPath` is `r.URL.Path` (the decoded path) and `URLRawPath` is
`r.URL.RawPath` (the encoded path, empty when the default encoding of the
path is the one that was sent). -/
structure Request where
  Method : String
  Host : String
  URLPath : String
  URLRawPath : String
  RequestURI : String
  Header : List (String × List String)
  deriving DecidableEq, Repr

/-- An `http.Handler`, as the trace of events it produces for a request. -/
abbrev Handler (ε : Type) := Request → List ε

/-- The wrapper `hostPortStrip(next)`. `splitHostPort` is
`net.SplitHostPort`, returning `(host, port)` or an error. -/
def hostPortStrip {ε : Type} (splitHostPort : String → Except String (String × String))
    (next : Handler ε) : Handler ε := fun r =>
  match splitHostPort r.Host with
  | .ok (host, _) => next { r with Host := host }
  | .error _ => next r

/-! ## Regular expressions and the injection rule -/

/-- A compiled `*regexp.Regexp`, represented by the expression it was compiled
from. -/
structure Regexp where
  expr : String
  deriving DecidableEq, Repr

/-- The characters with a special meaning in the regular expression syntax. -/
def regexpMetaChars : List Char :=
  ['\\', '.', '+', '*', '?', '(', ')', '|', '[', ']', '{', '}', '^', '$']

/-- Letters, digits and the underscore: the characters that do not stand for
themselves after a backslash. -/
def isWordChar (c : Char) : Bool :=
  c.isAlphanum || c == '_'

/-- The literal fragment of the regular expression syntax: an expression made
of ordinary characters and of backslash-escaped ASCII punctuation denotes the
string of those characters. No flag is set, so matching is case-sensitive.
Expressions outside the fragment give `none`. -/
def parseLiteral : List Char → Option (List Char)
  | [] => some []
  | '\\' :: c :: rest =>
    if c.val < 128 ∧ isWordChar c = false then (parseLiteral rest).map (c :: ·) else none
  | c :: rest =>
    if c ∈ regexpMetaChars then none else (parseLiteral rest).map (c :: ·)

/-- Leftmost occurrence of the literal `lit` in `b`, as the pair of the start
and end positions, counted from `pos`. -/
def findLiteral (lit : List Char) : List Char → Nat → Option (Nat × Nat)
  | [], pos => if lit = [] then some (pos, pos) else none
  | c :: cs, pos =>
    if lit.isPrefixOf (c :: cs) = true then some (pos, pos + lit.length)
    else findLiteral lit cs (pos + 1)

/-- The method `re.FindIndex(b)` for expressions of the literal fragment: the
location of the leftmost match. The outer `none` says that the expression is
outside the fragment; positions are counted in characters. -/
def Regexp.FindIndex (re : Regexp) (b : String) : Option (Option (Nat × Nat)) :=
  (parseLiteral re.expr.toList).map (fun lit => findLiteral lit b.toList 0)

/-- The type `inject.CopyInject`: the injection rule. A nil marker is `none`. -/
structure CopyInject where
  Within : Int
  Marker : Option Regexp
  Payload : String
  deriving DecidableEq, Repr

/-- The zero value `inject.CopyInject{}`. -/
def CopyInject.zero : CopyInject :=
  { Within := 0, Marker := none, Payload := "" }

/-- The package variable `injectLivereload`. -/
def injectLivereload : CopyInject :=
  { Within := 1024 * 5
    Marker := some { expr := "<\\/head>" }
    Payload := "<script src=\"/livereload.js\"></script>" }

/-- Occurrence of `pat` at position `i` of `s` up to ASCII case. -/
def occursFoldedAt (pat s : List Char) (i : Nat) : Prop :=
  i + pat.length ≤ s.length ∧
    ((s.drop i).take pat.length).map Char.toLower = pat.map Char.toLower

instance (pat s : List Char) (i : Nat) : Decidable (occursFoldedAt pat s i) := by
  unfold occursFoldedAt; infer_instance

/-- Occurrence of `pat` at position `i` of `s`, character for character. -/
def occursAt (pat s : List Char) (i : Nat) : Prop :=
  i + pat.length ≤ s.length ∧ (s.drop i).take pat.length = pat

instance (pat s : List Char) (i : Nat) : Decidable (occursAt pat s i) := by
  unfold occursAt; infer_instance

/-! ## Routes -/

/-- Modelled from the spec: the endpoint variants of the data model (the
endpoint types are declared outside `cli.go`); `cli.go` only calls
`route.Endpoint.Handler(templates, ci)`. -/
inductive Endpoint where
  | StaticDir (root : String)
  | ReverseProxy (upstream : String)
  | Redirect (destination : String)
  | SpaFallback (root fallback : String)
  deriving DecidableEq, Repr

/-- The type `Route` (declared outside `cli.go`) with the three fields that
`cli.go` reads. -/
structure Route where
  Host : String
  Path : String
  Endpoint : Endpoint
  deriving DecidableEq, Repr

/-- The type `RouteCollection`, a map from match key to route, as the list of
its entries in the order in which `range` visits them. -/
abbrev RouteCollection := List (String × Route)

/-- Modelled from the spec: path normalisation of a route specification
(the parser is outside `cli.go`): the mount prefix begins and ends
with `/`. -/
def normalizePath (p : List Char) : List Char :=
  let q := if p.head? = some '/' then p else '/' :: p
  if q.getLast? = some '/' then q else q ++ ['/']

/-- Modelled from the spec: parsing of a route specification
`[host/]path=target` (the parser is outside `cli.go`). The part before the
first `=` is the mount point: when it does not begin with `/`, what precedes
its first `/` is the host. A target that is a URL is a reverse proxy, any
other target a static directory. -/
def parseRouteSpec (s : String) : Option Route :=
  let cs := s.toList
  let lhs := cs.takeWhile (· ≠ '=')
  let target := (cs.dropWhile (· ≠ '=')).drop 1
  if lhs = [] ∨ target = [] then none
  else
    let host := if lhs.head? = some '/' then [] else lhs.takeWhile (· ≠ '/')
    let path := if lhs.head? = some '/' then lhs else lhs.dropWhile (· ≠ '/')
    let ep :=
      if "http://".toList.isPrefixOf target = true ∨ "https://".toList.isPrefixOf target = true
      then Endpoint.ReverseProxy (String.mk target)
      else Endpoint.StaticDir (String.mk target)
    some { Host := String.mk host, Path := String.mk (normalizePath path), Endpoint := ep }

/-- Modelled from the spec: `RouteCollection.Set` (outside `cli.go`): parses
the specification and adds the route under the key host ++ path; a key that
is already present is a duplicate route. -/
def specRouteSet (coll : RouteCollection) (s : String) : Except String RouteCollection :=
  match parseRouteSpec s with
  | none => .error "Invalid specification"
  | some route =>
    if (coll.map Prod.fst).contains (route.Host ++ route.Path) = true then .error "DuplicateRoute"
    else .ok (coll ++ [(route.Host ++ route.Path, route)])

/-! ## The per-request handler -/

/-- The logger of one request: `termlog.DummyLogger{}` or `log.Group()`. -/
inductive Sublog where
  | dummy
  | group
  deriving DecidableEq, Repr

/-- Events of one request, in the order in which the handler performs them. -/
inductive HEvent where
  | timerRequestHeaders
  | sleep (nanoseconds : Int)
  | say (sublog : Sublog) (method url : String)
  | logHeader (sublog : Sublog) (header : List (String × List String))
  | endpointServe (ep : Endpoint) (ci : CopyInject) (sublog : Sublog) (logHeaders : Bool)
      (r : Request)
  | sayTimer (sublog : Sublog)
  | done (sublog : Sublog)
  | notFound (r : Request)
  | livereload (r : Request)
  | livereloadScript (r : Request)
  deriving DecidableEq, Repr

/-- The function `matchStringAny`; `matchString` is `(*Regexp).MatchString`. -/
def matchStringAny (matchString : Regexp → String → Bool) : List Regexp → String → Bool
  | [], _ => false
  | r :: rest, s => if matchString r s = true then true else matchStringAny matchString rest s

/-- Reduction of an integer to the range of `int64` (two's complement). -/
def wrapInt64 (x : Int) : Int :=
  (x + 2 ^ 63) % 2 ^ 64 - 2 ^ 63

/-- The constant `time.Millisecond`, in nanoseconds. -/
def Millisecond : Int := 1000000

/-- The argument of `time.Sleep`: `time.Millisecond * time.Duration(latency)`,
a product of `int64` values. -/
def sleepDuration (latency : Int) : Int :=
  wrapInt64 (Millisecond * wrapInt64 latency)

/-- The pause that `time.Sleep(d)` asks for, in nanoseconds: `d` when it is
positive; a negative or zero duration makes `Sleep` return at once. -/
def sleptNanoseconds (d : Int) : Int :=
  if d ≤ 0 then 0 else d

/-- The function `devdHandler`. The call
`next.ServeHTTPContext(ctx, &ResponseLogWriter{...}, r)`, with
`next := route.Endpoint.Handler(templates, ci)`, is the event `endpointServe`;
the deferred function contributes the last two events. The line
`sublog.Say("%s %s", r.Method, r.URL)` is recorded with the path of the
URL. -/
def devdHandler (matchString : Regexp → String → Bool) (route : Route) (logHeaders : Bool)
    (ignoreHeaders : List Regexp) (livereload : Bool) (latency : Int) : Handler HEvent :=
  let ci := if livereload = true then injectLivereload else CopyInject.zero
  fun r =>
    let sublog :=
      if matchStringAny matchString ignoreHeaders (route.Host ++ r.RequestURI) = true
      then Sublog.dummy else Sublog.group
    [HEvent.timerRequestHeaders, HEvent.sleep (sleepDuration latency),
      HEvent.say sublog r.Method r.URLPath]
    ++ (if logHeaders = true then [HEvent.logHeader sublog r.Header] else [])
    ++ [HEvent.endpointServe route.Endpoint ci sublog logHeaders r,
      HEvent.sayTimer sublog, HEvent.done sublog]

/-- The function `strings.TrimPrefix`. -/
def trimPrefix (s pfx : String) : String :=
  if pfx.toList.isPrefixOf s.toList = true then String.mk (s.toList.drop pfx.toList.length) else s

/-- The function `http.StripPrefix(prefix, h)`: the prefix is removed from
both `URL.Path` and `URL.RawPath`, and the request is answered with
`http.NotFound` unless the path begins with the prefix and the raw path is
empty or begins with it too. -/
def StripPrefix (pfx : String) (h : Handler HEvent) : Handler HEvent :=
  if pfx = "" then h
  else fun r =>
    let p := trimPrefix r.URLPath pfx
    let rp := trimPrefix r.URLRawPath pfx
    if p.toList.length < r.URLPath.toList.length ∧
        (r.URLRawPath = "" ∨ rp.toList.length < r.URLRawPath.toList.length)
    then h { r with URLPath := p, URLRawPath := rp }
    else [HEvent.notFound r]

/-! ## Rates -/

/-- Rounding of a natural number to the nearest `float64` (53 significant
bits, ties to even). -/
def float64OfNat (n : Nat) : Nat :=
  if n < 2 ^ 53 then n
  else
    let e := Nat.log 2 n - 52
    let q := n / 2 ^ e
    let r := n % 2 ^ e
    let q2 := if 2 ^ (e - 1) < r ∨ (r = 2 ^ (e - 1) ∧ q % 2 = 1) then q + 1 else q
    q2 * 2 ^ e

/-- The conversion `float64(i)` of a Go `int`, as the exact value of the
result. -/
def float64OfInt (i : Int) : Int :=
  if i < 0 then -((float64OfNat i.natAbs : Nat) : Int) else ((float64OfNat i.natAbs : Nat) : Int)

/-- The rate argument `float64(kbps)*1024` of `slowdown.NewSlowListener`; the
product with a power of two is exact. -/
def rateOfKbps (kbps : Int) : Int :=
  float64OfInt kbps * 1024

/-! ## The server options and the environment -/

/-- The type `Devd`: the devd server options. -/
structure Devd where
  Routes : List String
  OpenBrowser : Bool
  CertFile : String
  AllInterfaces : Bool
  Address : String
  Port : Int
  Latency : Int
  DownKbps : Int
  UpKbps : Int
  LivereloadRoutes : Bool
  Watch : List String
  Excludes : List String
  Debug : Bool
  LogHeaders : Bool
  EnableTimer : Bool
  IgnoreLogs : List String
  deriving DecidableEq, Repr

/-- The collaborators of `Serve` that live outside `cli.go`. -/
structure Env where
  /-- The constant `slowdown.MaxRate`. -/
  MaxRate : Int
  /-- The call `net.Listen("tcp", addr)`. -/
  netListen : String → Except String Listener
  /-- The call `regexp.Compile(expr)`. -/
  regexpCompile : String → Except String Regexp
  /-- The method `(*Regexp).MatchString`. -/
  regexpMatchString : Regexp → String → Bool
  /-- The method `RouteCollection.Set`, with the collection before the call. -/
  routeSet : RouteCollection → String → Except String RouteCollection
  /-- The function `WatchRoutes(routeColl, lr)`. -/
  watchRoutes : RouteCollection → Except String Unit
  /-- The function `WatchPaths(watch, excludes, lr, logger)`. -/
  watchPaths : List String → List String → Except String Unit
  /-- The call `tls.LoadX509KeyPair(path, path)`. -/
  loadX509KeyPair : String → Except String String
  /-- The error with which `server.Serve(hl)` returns, `none` when it never
  returns. -/
  serverServe : Option String

/-- The function `getTLSConfig(path)`. -/
def getTLSConfig (env : Env) (path : String) : Except String TLSConfig :=
  match env.loadX509KeyPair path with
  | .error err => .error err
  | .ok cert => .ok { NextProtos := ["http/1.1"], Certificates := [cert] }

/-- Calls that `Serve` makes, in order. -/
inductive ServeEvent where
  | loggerEnable (category : String)
  | netListen (addr : String) (port : Int)
  | makeTemplates (box : String)
  | regexpCompile (expr : String)
  | routeSet (spec : String)
  | muxHandle (pattern : String) (h : Handler HEvent)
  | watchRoutes
  | watchPaths (watch excludes : List String)
  | loadX509KeyPair (path : String)
  | newSlowListener (hl : Listener) (upRate downRate : Int)
  | say (msg : String)
  | openBrowser (url : String)
  | serve (addr : String) (hl : Listener)
  | shout (msg : String)

/-- How a call of `Serve` ends: with a non-nil error, with nil, or not at all
(the server keeps serving). -/
inductive Outcome where
  | err (msg : String)
  | nil
  | serving
  deriving DecidableEq, Repr

/-- The loop over `dd.IgnoreLogs`: the expressions handed to `regexp.Compile`
and the compiled list, or the first error. -/
def compileIgnores (compile : String → Except String Regexp) :
    List String → List String × Except String (List Regexp)
  | [] => ([], .ok [])
  | expr :: rest =>
    match compile expr with
    | .error err => ([expr], .error err)
    | .ok v =>
      let r := compileIgnores compile rest
      (expr :: r.1, match r.2 with
        | .error err => .error err
        | .ok vs => .ok (v :: vs))

/-- The loop over `dd.Routes`: the specifications handed to
`RouteCollection.Set` and the final collection, or the first error. -/
def setRoutes (routeSet : RouteCollection → String → Except String RouteCollection) :
    RouteCollection → List String → List String × Except String RouteCollection
  | coll, [] => ([], .ok coll)
  | coll, s :: rest =>
    match routeSet coll s with
    | .error err => ([s], .error err)
    | .ok coll2 =>
      let r := setRoutes routeSet coll2 rest
      (s :: r.1, r.2)

/-- The listening step of `Serve`: `net.Listen` on the configured port when it
is positive, `pickPort` otherwise. -/
def bindListener (env : Env) (address : String) (port : Int) (tlsEnabled : Bool) :
    List Int × Except String Listener :=
  if port > 0 then ([port], env.netListen (listenAddr address port))
  else pickPort env.netListen address portLow portHigh tlsEnabled

/-- The handler of the live-reload server `lr`. -/
def lrHandler : Handler HEvent := fun r => [HEvent.livereload r]

/-- The handler `http.HandlerFunc(lr.ServeScript)`. -/
def lrScriptHandler : Handler HEvent := fun r => [HEvent.livereloadScript r]

/-- The value of `livereloadEnabled` in `Serve`. -/
def livereloadEnabled (dd : Devd) : Bool :=
  dd.LivereloadRoutes || decide (dd.Watch.length > 0)

/-- The replacement of a zero rate by `slowdown.MaxRate` and of the address
by `0.0.0.0` at the start of `Serve`. -/
def applyDefaults (env : Env) (dd : Devd) : Devd :=
  let dd1 := if dd.DownKbps = 0 then { dd with DownKbps := env.MaxRate } else dd
  let dd2 := if dd1.UpKbps = 0 then { dd1 with UpKbps := env.MaxRate } else dd1
  if dd2.AllInterfaces = true then { dd2 with Address := "0.0.0.0" } else dd2

/-- The last part of `Serve`, from the wrapping of the listener on. -/
def serveTail (env : Env) (dd : Devd) (tlsEnabled : Bool) (hl : Listener) :
    List ServeEvent × Outcome :=
  let hl2 := Listener.slow hl (rateOfKbps dd.UpKbps) (rateOfKbps dd.DownKbps)
  let url := formatURL tlsEnabled dd.Address hl2.Port
  let t :=
    [ServeEvent.newSlowListener hl (rateOfKbps dd.UpKbps) (rateOfKbps dd.DownKbps),
      ServeEvent.say ("Listening on " ++ url ++ " (" ++ hl2.AddrString ++ ")")]
    ++ (if dd.OpenBrowser = true then [ServeEvent.openBrowser url] else [])
    ++ [ServeEvent.serve hl2.AddrString hl2]
  match env.serverServe with
  | none => (t, Outcome.serving)
  | some err => (t ++ [ServeEvent.shout ("Server stopped: " ++ err)], Outcome.nil)

/-- The part of `Serve` after the route collection is built: registration of
the handlers, the watchers, the TLS configuration, then `serveTail`. -/
def serveRoutes (env : Env) (dd : Devd) (tlsEnabled : Bool) (hl : Listener)
    (ignores : List Regexp) (routeColl : RouteCollection) : List ServeEvent × Outcome :=
  let t1 := routeColl.map (fun (kv : String × Route) =>
    ServeEvent.muxHandle kv.1
      (StripPrefix kv.2.Path
        (devdHandler env.regexpMatchString kv.2 dd.LogHeaders ignores (livereloadEnabled dd)
          dd.Latency)))
  let t2 := t1 ++
    (if livereloadEnabled dd = true then
      [ServeEvent.muxHandle "/livereload" lrHandler,
        ServeEvent.muxHandle "/livereload.js" lrScriptHandler]
    else [])
  let afterWatchPaths (t : List ServeEvent) : List ServeEvent × Outcome :=
    if dd.CertFile ≠ "" then
      match getTLSConfig env dd.CertFile with
      | .error err =>
        (t ++ [ServeEvent.loadX509KeyPair dd.CertFile], Outcome.err ("Could not load certs: " ++ err))
      | .ok tlsConfig =>
        let r := serveTail env dd tlsEnabled (Listener.tls hl tlsConfig)
        (t ++ [ServeEvent.loadX509KeyPair dd.CertFile] ++ r.1, r.2)
    else
      let r := serveTail env dd tlsEnabled hl
      (t ++ r.1, r.2)
  let afterWatchRoutes (t : List ServeEvent) : List ServeEvent × Outcome :=
    if dd.Watch.length > 0 then
      match env.watchPaths dd.Watch dd.Excludes with
      | .error err =>
        (t ++ [ServeEvent.watchPaths dd.Watch dd.Excludes],
          Outcome.err ("Could not watch path for livereload: " ++ err))
      | .ok _ => afterWatchPaths (t ++ [ServeEvent.watchPaths dd.Watch dd.Excludes])
    else afterWatchPaths t
  if dd.LivereloadRoutes = true then
    match env.watchRoutes routeColl with
    | .error err =>
      (t2 ++ [ServeEvent.watchRoutes], Outcome.err ("Could not watch routes for livereload: " ++ err))
    | .ok _ => afterWatchRoutes (t2 ++ [ServeEvent.watchRoutes])
  else afterWatchRoutes t2

/-- The method `(*Devd).Serve`: the calls it makes, in order, and how it
ends. -/
def Serve (env : Env) (dd0 : Devd) : List ServeEvent × Outcome :=
  let t0 :=
    (if dd0.Debug = true then [ServeEvent.loggerEnable "debug"] else [])
    ++ (if dd0.EnableTimer = true then [ServeEvent.loggerEnable "timer"] else [])
  let dd := applyDefaults env dd0
  let tlsEnabled : Bool := decide (dd.CertFile ≠ "")
  let bound := bindListener env dd.Address dd.Port tlsEnabled
  let t1 := t0 ++ bound.1.map (ServeEvent.netListen dd.Address)
  match bound.2 with
  | .error err => (t1, Outcome.err ("Could not bind to port: " ++ err))
  | .ok hl =>
    let t2 := t1 ++ [ServeEvent.makeTemplates "templates"]
    let compiled := compileIgnores env.regexpCompile dd.IgnoreLogs
    let t3 := t2 ++ compiled.1.map ServeEvent.regexpCompile
    match compiled.2 with
    | .error err => (t3, Outcome.err err)
    | .ok ignores =>
      let routed := setRoutes env.routeSet [] dd.Routes
      let t4 := t3 ++ routed.1.map ServeEvent.routeSet
      match routed.2 with
      | .error err => (t4, Outcome.err ("Invalid route specification: " ++ err))
      | .ok routeColl =>
        let r := serveRoutes env dd tlsEnabled hl ignores routeColl
        (t4 ++ r.1, r.2)

/-! ## Definitions used in the statements -/

/-- The ports `i, i + 1, ..., i + n - 1` in ascending order. -/
def portsFrom : Nat → Int → List Int
  | 0, _ => []
  | n + 1, i => i :: portsFrom n (i + 1)

/-- The ports that `pickPort` may try, in the order of the claim: the default
port of the scheme, then `low, low + 1, ...` below `high`. -/
def portCandidates (low high : Int) (tls : Bool) : List Int :=
  (if tls = true then 443 else 80) :: portsFrom (high - low).toNat low

/-- The logger calls at the start of `Serve`. -/
def startTrace (dd : Devd) : List ServeEvent :=
  (if dd.Debug = true then [ServeEvent.loggerEnable "debug"] else [])
  ++ (if dd.EnableTimer = true then [ServeEvent.loggerEnable "timer"] else [])

/-- The address on which `Serve` listens: `0.0.0.0` with `AllInterfaces`, the
configured address otherwise. -/
def listenAddress (dd : Devd) : String :=
  if dd.AllInterfaces = true then "0.0.0.0" else dd.Address

/-- The listening step as `Serve` performs it: on the address and port of the
options after the defaults are applied, with TLS when a certificate file is
configured. -/
def boundListener (env : Env) (dd : Devd) : List Int × Except String Listener :=
  bindListener env (listenAddress dd) dd.Port (decide (dd.CertFile ≠ ""))

/-- The listener that `Serve` hands to `slowdown.NewSlowListener`: the bound
listener itself without a certificate file, the bound listener under
`tls.NewListener` with one; `none` when the certificate does not load. -/
def shapedInner (env : Env) (certFile : String) (hl : Listener) : Option Listener :=
  if certFile ≠ "" then
    match getTLSConfig env certFile with
    | .error _ => none
    | .ok tlsConfig => some (Listener.tls hl tlsConfig)
  else some hl

/-- The calls that come before the listener is wrapped: logger set-up,
listening, templates, compilation of the ignore expressions, route set-up,
registration with the mux, the watchers and the certificate. -/
def ServeEvent.isSetup : ServeEvent → Bool
  | .loggerEnable _ => true
  | .netListen _ _ => true
  | .makeTemplates _ => true
  | .regexpCompile _ => true
  | .routeSet _ => true
  | .muxHandle _ _ => true
  | .watchRoutes => true
  | .watchPaths _ _ => true
  | .loadX509KeyPair _ => true
  | .newSlowListener _ _ _ => false
  | .say _ => false
  | .openBrowser _ => false
  | .serve _ _ => false
  | .shout _ => false

/-- The handlers registered with the mux, in order of registration. -/
def muxRegistrations : List ServeEvent → List (String × Handler HEvent)
  | [] => []
  | ServeEvent.muxHandle pattern h :: rest => (pattern, h) :: muxRegistrations rest
  | _ :: rest => muxRegistrations rest

/-- A network in which only port 8001 of 127.0.0.1 can be bound; regular
expressions other than `(` compile; routes are set as the spec describes. -/
def sampleEnv : Env :=
  { MaxRate := 1048576000
    netListen := fun a =>
      if a = "127.0.0.1:8001" then .ok (Listener.tcp a 8001)
      else .error ("listen tcp " ++ a ++ ": bind: address already in use")
    regexpCompile := fun e =>
      if e = "(" then .error "error parsing regexp: missing closing )" else .ok ⟨e⟩
    regexpMatchString := fun _ _ => false
    routeSet := specRouteSet
    watchRoutes := fun _ => .ok ()
    watchPaths := fun _ _ => .ok ()
    loadX509KeyPair := fun p => .ok p
    serverServe := none }

/-- Options that serve one static route on port 8001 of 127.0.0.1, with an
upload limit of 7 and no download limit. -/
def sampleOptions : Devd :=
  { Routes := ["static.test/assets=./public"]
    OpenBrowser := false
    CertFile := ""
    AllInterfaces := false
    Address := "127.0.0.1"
    Port := 8001
    Latency := 5
    DownKbps := 0
    UpKbps := 7
    LivereloadRoutes := false
    Watch := []
    Excludes := []
    Debug := false
    LogHeaders := false
    EnableTimer := false
    IgnoreLogs := [] }

/-- The request `GET /assets/img.png` with `Host: static.test`. -/
def sampleRequest : Request :=
  { Method := "GET"
    Host := "static.test"
    URLPath := "/assets/img.png"
    URLRawPath := ""
    RequestURI := "/assets/img.png"
    Header := [] }

/-- The request `GET /assets%2Fimg.png` with `Host: static.test`: the same
decoded path, with a raw path that keeps the encoded slash. -/
def encodedSlashRequest : Request :=
  { Method := "GET"
    Host := "static.test"
    URLPath := "/assets/img.png"
    URLRawPath := "/assets%2Fimg.png"
    RequestURI := "/assets%2Fimg.png"
    Header := [] }

/-- The sample options with an ignore expression that does not compile. -/
def badRegexpOptions : Devd :=
  { sampleOptions with IgnoreLogs := ["("] }

/-- The sample options with a route specification that has no mount point. -/
def badRouteOptions : Devd :=
  { sampleOptions with Routes := ["=x"] }

/-- The sample options with a port that cannot be bound. -/
def busyPortOptions : Devd :=
  { sampleOptions with Port := 9000 }

/-- The sample options with a watched path, which turns live-reload on. -/
def watchOptions : Devd :=
  { sampleOptions with Watch := ["./src"] }

/-- The route that the spec assigns to `static.test/assets=./public`. -/
def sampleRoute : Route :=
  { Host := "static.test", Path := "/assets/", Endpoint := Endpoint.StaticDir "./public" }

/-! ## Port selection: properties -/

theorem mem_portsFrom (n : Nat) (i p : Int) :
    p ∈ portsFrom n i ↔ i ≤ p ∧ p < i + n := by
  induction n generalizing i with
  | zero => simp [portsFrom]
  | succ n ih =>
    simp only [portsFrom, List.mem_cons, ih]
    push_cast
    omega

theorem portsFrom_ascending (n : Nat) (i : Int) :
    (portsFrom n i).Pairwise (· < ·) := by
  induction n generalizing i with
  | zero => simp [portsFrom]
  | succ n ih =>
    simp only [portsFrom, List.pairwise_cons]
    refine ⟨?_, ih (i + 1)⟩
    intro p hp
    have := (mem_portsFrom n (i + 1) p).1 hp
    omega

theorem pickPortLoop_spec (f : String → Except String Listener) (addr : String)
    (n : Nat) (i : Int) :
    (pickPortLoop f addr n i).1 <+: portsFrom n i ∧
    (∀ hl, (pickPortLoop f addr n i).2 = .ok hl →
      ∃ pre a, (pickPortLoop f addr n i).1 = pre ++ [a] ∧ f (listenAddr addr a) = .ok hl ∧
        ∀ b ∈ pre, ∃ e, f (listenAddr addr b) = .error e) ∧
    (∀ e, (pickPortLoop f addr n i).2 = .error e →
      e = "Could not find open port." ∧
      (pickPortLoop f addr n i).1 = portsFrom n i ∧
      ∀ b ∈ (pickPortLoop f addr n i).1, ∃ e2, f (listenAddr addr b) = .error e2) := by
  induction n generalizing i with
  | zero => simp [pickPortLoop, portsFrom]
  | succ n ih =>
    obtain ⟨h1, h2, h3⟩ := ih (i + 1)
    cases hf : f (listenAddr addr i) with
    | ok hl =>
      simp only [pickPortLoop, hf, portsFrom]
      refine ⟨?_, ?_, ?_⟩
      · exact ⟨_, rfl⟩
      · intro hl2 h
        refine ⟨[], i, rfl, ?_, by simp⟩
        rw [hf]; exact h
      · intro e h; cases h
    | error e0 =>
      simp only [pickPortLoop, hf, portsFrom]
      refine ⟨?_, ?_, ?_⟩
      · obtain ⟨t, ht⟩ := h1
        exact ⟨t, by simp [← ht]⟩
      · intro hl h
        obtain ⟨pre, a, hpre, ha, hall⟩ := h2 hl h
        refine ⟨i :: pre, a, by simp [hpre], ha, ?_⟩
        intro b hb
        rcases List.mem_cons.1 hb with rfl | hb
        · exact ⟨e0, hf⟩
        · exact hall b hb
      · intro e h
        obtain ⟨he, hl, hall⟩ := h3 e h
        refine ⟨he, by rw [hl], ?_⟩
        intro b hb
        rcases List.mem_cons.1 hb with rfl | hb
        · exact ⟨e0, hf⟩
        · exact hall b hb

theorem pickPort_result (f : String → Except String Listener) (addr : String)
    (low high : Int) (tls : Bool) :
    (pickPort f addr low high tls).1 <+: portCandidates low high tls ∧
    (∀ hl, (pickPort f addr low high tls).2 = .ok hl →
      ∃ pre a, (pickPort f addr low high tls).1 = pre ++ [a] ∧
        f (listenAddr addr a) = .ok hl ∧ ∀ b ∈ pre, ∃ e, f (listenAddr addr b) = .error e) ∧
    (∀ e, (pickPort f addr low high tls).2 = .error e →
      e = "Could not find open port." ∧
      (pickPort f addr low high tls).1 = portCandidates low high tls ∧
      ∀ b ∈ (pickPort f addr low high tls).1, ∃ e2, f (listenAddr addr b) = .error e2) := by
  obtain ⟨h1, h2, h3⟩ := pickPortLoop_spec f addr (high - low).toNat low
  cases hf : f (listenAddr addr (if tls = true then 443 else 80)) with
  | ok hl =>
    simp only [pickPort, hf, portCandidates]
    refine ⟨⟨_, rfl⟩, ?_, ?_⟩
    · intro hl2 h
      refine ⟨[], (if tls = true then 443 else 80), rfl, ?_, by simp⟩
      rw [hf]; exact h
    · intro e h; cases h
  | error e0 =>
    simp only [pickPort, hf, portCandidates]
    refine ⟨?_, ?_, ?_⟩
    · obtain ⟨t, ht⟩ := h1
      exact ⟨t, by simp [← ht]⟩
    · intro hl h
      obtain ⟨pre, a, hpre, ha, hall⟩ := h2 hl h
      refine ⟨(if tls = true then 443 else 80) :: pre, a, by simp [hpre], ha, ?_⟩
      intro b hb
      rcases List.mem_cons.1 hb with rfl | hb
      · exact ⟨e0, hf⟩
      · exact hall b hb
    · intro e h
      obtain ⟨he, hl, hall⟩ := h3 e h
      refine ⟨he, by rw [hl], ?_⟩
      intro b hb
      rcases List.mem_cons.1 hb with rfl | hb
      · exact ⟨e0, hf⟩
      · exact hall b hb

theorem pickPort_error_iff (f : String → Except String Listener)
    (addr : String) (low high : Int) (tls : Bool) :
    (pickPort f addr low high tls).2 = .error "Could not find open port." ↔
      ∀ p ∈ portCandidates low high tls, ∃ e, f (listenAddr addr p) = .error e := by
  obtain ⟨h1, h2, h3⟩ := pickPort_result f addr low high tls
  constructor
  · intro h p hp
    obtain ⟨_, hl, hall⟩ := h3 _ h
    exact hall _ (by rw [hl]; exact hp)
  · intro hall
    cases hr : (pickPort f addr low high tls).2 with
    | error e => rw [(h3 e hr).1]
    | ok hl =>
      obtain ⟨pre, a, hpre, ha, _⟩ := h2 hl hr
      have hmemA : a ∈ portCandidates low high tls :=
        h1.subset (by rw [hpre]; simp)
      obtain ⟨e, he⟩ := hall a hmemA
      rw [he] at ha
      cases ha

/-- C8: `pickPort(addr, low, high, tls)` calls `net.Listen` on a prefix of the
list "default port (443 with tls, 80 without), then the ports `p` with
`low <= p < high` in ascending order"; when it returns a listener, that is
the listener of the last port tried and every port tried before it failed to
bind; its only error is "Could not find open port.", returned exactly when
the default port and every port of `[low, high)` fail to bind; every port
tried is the default port or lies in `[low, high)`, so `high` is not tried
(unless it is the default port itself). -/
theorem pickPort_default_then_ascending_range (f : String → Except String Listener)
    (addr : String) (low high : Int) (tls : Bool) :
    portCandidates low high tls
      = (if tls = true then 443 else 80) :: portsFrom (high - low).toNat low ∧
    (portsFrom (high - low).toNat low).Pairwise (· < ·) ∧
    (∀ p, p ∈ portsFrom (high - low).toNat low ↔ low ≤ p ∧ p < high) ∧
    (pickPort f addr low high tls).1 <+: portCandidates low high tls ∧
    (∀ hl, (pickPort f addr low high tls).2 = .ok hl →
      ∃ pre a, (pickPort f addr low high tls).1 = pre ++ [a] ∧
        f (listenAddr addr a) = .ok hl ∧ ∀ b ∈ pre, ∃ e, f (listenAddr addr b) = .error e) ∧
    (∀ e, (pickPort f addr low high tls).2 = .error e → e = "Could not find open port.") ∧
    ((pickPort f addr low high tls).2 = .error "Could not find open port." ↔
      ∀ p ∈ portCandidates low high tls, ∃ e, f (listenAddr addr p) = .error e) ∧
    (∀ p ∈ (pickPort f addr low high tls).1,
      p = (if tls = true then 443 else 80) ∨ (low ≤ p ∧ p < high)) ∧
    (high ≠ (if tls = true then 443 else 80) → high ∉ (pickPort f addr low high tls).1) := by
  obtain ⟨h1, h2, h3⟩ := pickPort_result f addr low high tls
  have hmem : ∀ p, p ∈ portsFrom (high - low).toNat low ↔ low ≤ p ∧ p < high := by
    intro p
    rw [mem_portsFrom]
    omega
  have htried : ∀ p ∈ (pickPort f addr low high tls).1,
      p = (if tls = true then 443 else 80) ∨ (low ≤ p ∧ p < high) := by
    intro p hp
    rcases List.mem_cons.1 (h1.subset hp) with h | h
    · exact Or.inl h
    · exact Or.inr ((hmem p).1 h)
  refine ⟨rfl, portsFrom_ascending _ _, hmem, h1, h2, fun e h => (h3 e h).1,
    pickPort_error_iff f addr low high tls, htried, ?_⟩
  intro hne hin
  rcases htried high hin with h | h
  · exact hne h
  · omega

/-- C8 witness: when port 80 and port 8000 are taken and port 8001 is free,
`pickPort` with the range `[8000, 8003)` tries 80, 8000 and 8001 and returns
the listener of port 8001. -/
theorem pickPort_default_then_ascending_range_witness :
    (pickPort sampleEnv.netListen "127.0.0.1" 8000 8003 false).2
      = .ok (Listener.tcp "127.0.0.1:8001" 8001) ∧
    ∃ pre a, (pickPort sampleEnv.netListen "127.0.0.1" 8000 8003 false).1 = pre ++ [a] ∧
      sampleEnv.netListen (listenAddr "127.0.0.1" a) = .ok (Listener.tcp "127.0.0.1:8001" 8001) ∧
      ∀ b ∈ pre, ∃ e, sampleEnv.netListen (listenAddr "127.0.0.1" b) = .error e :=
  ⟨rfl, (pickPort_default_then_ascending_range sampleEnv.netListen "127.0.0.1" 8000 8003
    false).2.2.2.2.1 _ rfl⟩

/-- C9: `formatURL` returns scheme://host when the port is the default of the
scheme (443 with tls, 80 without) and scheme://host:port otherwise; the scheme
is "https" with tls and "http" without; the host is "devd.io" for the
addresses "0.0.0.0" and "127.0.0.1" and the address itself otherwise. The port
is omitted exactly when it is the default. -/
theorem formatURL_omits_exactly_default_port (tls : Bool) (httpIP : String) (port : Int) :
    formatURL tls httpIP port =
      (if tls = true then "https" else "http") ++ "://" ++
        (if httpIP = "0.0.0.0" ∨ httpIP = "127.0.0.1" then "devd.io" else httpIP) ++
        (if port = (if tls = true then 443 else 80) then "" else ":" ++ toString port) ∧
    (formatURL tls httpIP port =
        (if tls = true then "https" else "http") ++ "://" ++
          (if httpIP = "0.0.0.0" ∨ httpIP = "127.0.0.1" then "devd.io" else httpIP)
      ↔ port = (if tls = true then 443 else 80)) := by
  have main : formatURL tls httpIP port =
      (if tls = true then "https" else "http") ++ "://" ++
        (if httpIP = "0.0.0.0" ∨ httpIP = "127.0.0.1" then "devd.io" else httpIP) ++
        (if port = (if tls = true then 443 else 80) then "" else ":" ++ toString port) := by
    unfold formatURL
    cases tls <;> by_cases h80 : port = 80 <;> by_cases h443 : port = 443 <;>
      simp [h80, h443, String.append_assoc]
  refine ⟨main, ?_⟩
  rw [main]
  by_cases hp : port = (if tls = true then 443 else 80)
  · simp [hp]
  · simp only [hp, if_false, iff_false]
    intro h
    have := congrArg String.length h
    simp only [String.length_append] at this
    have h1 : (":" : String).length = 1 := rfl
    omega

/-- C10: the handler returned by `hostPortStrip` behaves as one invocation of
the next handler on a request that agrees with the original in every field
but `Host`; its `Host` is the host part when `net.SplitHostPort` splits the
original `Host`, and the original `Host` when it does not. -/
theorem hostPortStrip_invokes_next_once
    (splitHostPort : String → Except String (String × String)) (r : Request) :
    ∃ r2 : Request,
      (∀ (ε : Type) (next : Handler ε), hostPortStrip splitHostPort next r = next r2) ∧
      hostPortStrip splitHostPort (fun x => [x]) r = [r2] ∧
      (∀ host port, splitHostPort r.Host = .ok (host, port) → r2.Host = host) ∧
      (∀ e, splitHostPort r.Host = .error e → r2.Host = r.Host) ∧
      r2.Method = r.Method ∧ r2.URLPath = r.URLPath ∧ r2.RequestURI = r.RequestURI ∧
      r2.Header = r.Header ∧ r2.URLRawPath = r.URLRawPath := by
  cases h : splitHostPort r.Host with
  | error e =>
    refine ⟨r, ?_, ?_, ?_, ?_, rfl, rfl, rfl, rfl, rfl⟩
    · intro ε next; simp [hostPortStrip, h]
    · simp [hostPortStrip, h]
    · intro host port h2; cases h2
    · intro _ _; rfl
  | ok hp =>
    obtain ⟨host, port⟩ := hp
    refine ⟨{ r with Host := host }, ?_, ?_, ?_, ?_, rfl, rfl, rfl, rfl, rfl⟩
    · intro ε next; simp [hostPortStrip, h]
    · simp [hostPortStrip, h]
    · intro host2 port2 h2; cases h2; rfl
    · intro e h2; cases h2

/-! ## The marker of the injection rule: properties -/

theorem occursAt_zero_iff (lit s : List Char) :
    occursAt lit s 0 ↔ lit.isPrefixOf s = true := by
  rw [List.isPrefixOf_iff_prefix, List.prefix_iff_eq_take]
  unfold occursAt
  constructor
  · rintro ⟨_, h⟩
    simpa using h.symm
  · intro h
    have hlen : lit.length ≤ s.length := by
      have := congrArg List.length h
      rw [List.length_take] at this
      omega
    exact ⟨by simpa using hlen, by simpa using h.symm⟩

theorem occursAt_succ_iff (lit : List Char) (c : Char) (cs : List Char) (k : Nat) :
    occursAt lit (c :: cs) (k + 1) ↔ occursAt lit cs k := by
  unfold occursAt
  simp only [List.length_cons, List.drop_succ_cons]
  constructor
  · rintro ⟨h1, h2⟩; exact ⟨by omega, h2⟩
  · rintro ⟨h1, h2⟩; exact ⟨by omega, h2⟩

theorem findLiteral_some (lit : List Char) (s : List Char) (pos i j : Nat)
    (h : findLiteral lit s pos = some (i, j)) :
    ∃ k, i = pos + k ∧ j = i + lit.length ∧ occursAt lit s k ∧
      ∀ k2, k2 < k → ¬ occursAt lit s k2 := by
  induction s generalizing pos with
  | nil =>
    simp only [findLiteral] at h
    split at h
    · rename_i hl
      simp only [Option.some.injEq, Prod.mk.injEq] at h
      refine ⟨0, by omega, by simp [hl]; omega, by simp [occursAt, hl], by omega⟩
    · cases h
  | cons c cs ih =>
    simp only [findLiteral] at h
    split at h
    · rename_i hp
      simp only [Option.some.injEq, Prod.mk.injEq] at h
      exact ⟨0, by omega, by omega, (occursAt_zero_iff _ _).2 hp, by omega⟩
    · rename_i hp
      obtain ⟨k, hi, hj, hocc, hmin⟩ := ih (pos + 1) h
      refine ⟨k + 1, by omega, hj, (occursAt_succ_iff _ _ _ _).2 hocc, ?_⟩
      intro k2 hk2
      cases k2 with
      | zero => rw [occursAt_zero_iff]; exact hp
      | succ k3 =>
        rw [occursAt_succ_iff]
        exact hmin k3 (by omega)

theorem findLiteral_none (lit : List Char) (s : List Char) (pos : Nat)
    (h : findLiteral lit s pos = none) : ∀ k, ¬ occursAt lit s k := by
  induction s generalizing pos with
  | nil =>
    simp only [findLiteral] at h
    split at h
    · cases h
    · rename_i hl
      intro k hk
      unfold occursAt at hk
      simp only [List.length_nil, Nat.le_zero_eq, Nat.add_eq_zero_iff, List.length_eq_zero] at hk
      exact hl hk.1.2
  | cons c cs ih =>
    simp only [findLiteral] at h
    split at h
    · cases h
    · rename_i hp
      intro k
      cases k with
      | zero => rw [occursAt_zero_iff]; exact hp
      | succ k3 =>
        rw [occursAt_succ_iff]
        exact ih (pos + 1) h k3

/-- C2, as the code has it: the marker of `injectLivereload` is the literal
`</head>` matched character for character (case-sensitively). It matches
exactly the inputs that contain `</head>` in lower case, and its first match
is the first such occurrence and spans its seven characters. -/
theorem marker_matches_lowercase_head_only (b : String) :
    ∃ re, injectLivereload.Marker = some re ∧
      re.FindIndex b = some (findLiteral "</head>".toList b.toList 0) ∧
      ((∃ m, findLiteral "</head>".toList b.toList 0 = some m) ↔
        ∃ i, occursAt "</head>".toList b.toList i) ∧
      (∀ i j, findLiteral "</head>".toList b.toList 0 = some (i, j) →
        occursAt "</head>".toList b.toList i ∧ j = i + 7 ∧
        ∀ k, k < i → ¬ occursAt "</head>".toList b.toList k) := by
  refine ⟨{ expr := "<\\/head>" }, rfl, ?_, ?_, ?_⟩
  · have hp : parseLiteral "<\\/head>".toList = some "</head>".toList := by decide
    simp only [Regexp.FindIndex, hp, Option.map_some']
  · constructor
    · rintro ⟨⟨i, j⟩, hm⟩
      obtain ⟨k, hi, _, hocc, _⟩ := findLiteral_some _ _ _ _ _ hm
      exact ⟨k, hocc⟩
    · rintro ⟨i, hi⟩
      cases hf : findLiteral "</head>".toList b.toList 0 with
      | some m => exact ⟨m, rfl⟩
      | none => exact absurd hi (findLiteral_none _ _ _ hf i)
  · intro i j hm
    obtain ⟨k, hi, hj, hocc, hmin⟩ := findLiteral_some _ _ _ _ _ hm
    have hik : i = k := by omega
    subst hik
    exact ⟨hocc, by simpa using hj, hmin⟩

/-- C2 witness: in `<html><HEAD></HEAD><head></head>` the marker matches at
position 25, the first lower-case `</head>`. -/
theorem marker_matches_lowercase_head_only_witness :
    findLiteral "</head>".toList "<html><HEAD></HEAD><head></head>".toList 0 = some (25, 32) ∧
    occursAt "</head>".toList "<html><HEAD></HEAD><head></head>".toList 25 ∧
    ∀ k, k < 25 → ¬ occursAt "</head>".toList "<html><HEAD></HEAD><head></head>".toList k := by
  obtain ⟨_, _, _, _, h⟩ := marker_matches_lowercase_head_only "<html><HEAD></HEAD><head></head>"
  have hf : findLiteral "</head>".toList "<html><HEAD></HEAD><head></head>".toList 0
      = some (25, 32) := by decide
  exact ⟨hf, (h 25 32 hf).1, (h 25 32 hf).2.2⟩

/-- C2 counterexample: `</HEAD>` contains the characters of `</head>` in
upper case, and the marker does not match it; in `</HEAD></head>` the first
match of the marker is at position 7, not at the first occurrence up to case
(position 0). -/
theorem marker_is_case_sensitive :
    (∃ re, injectLivereload.Marker = some re ∧
      occursFoldedAt "</head>".toList "</HEAD>".toList 0 ∧
      re.FindIndex "</HEAD>" = some none ∧
      occursFoldedAt "</head>".toList "</HEAD></head>".toList 0 ∧
      re.FindIndex "</HEAD></head>" = some (some (7, 14))) := by
  refine ⟨{ expr := "<\\/head>" }, rfl, ?_, ?_, ?_, ?_⟩ <;> decide

/-! ## The start-up sequence: auxiliary facts -/

theorem applyDefaults_fields (env : Env) (dd : Devd) :
    (applyDefaults env dd).Port = dd.Port ∧
    (applyDefaults env dd).CertFile = dd.CertFile ∧
    (applyDefaults env dd).IgnoreLogs = dd.IgnoreLogs ∧
    (applyDefaults env dd).Routes = dd.Routes ∧
    (applyDefaults env dd).Latency = dd.Latency ∧
    (applyDefaults env dd).LogHeaders = dd.LogHeaders ∧
    (applyDefaults env dd).LivereloadRoutes = dd.LivereloadRoutes ∧
    (applyDefaults env dd).Watch = dd.Watch ∧
    (applyDefaults env dd).Address = listenAddress dd ∧
    (applyDefaults env dd).UpKbps = (if dd.UpKbps = 0 then env.MaxRate else dd.UpKbps) ∧
    (applyDefaults env dd).DownKbps = (if dd.DownKbps = 0 then env.MaxRate else dd.DownKbps) := by
  unfold applyDefaults listenAddress
  by_cases h1 : dd.DownKbps = 0 <;> by_cases h2 : dd.UpKbps = 0 <;>
    by_cases h3 : dd.AllInterfaces = true <;> simp [h1, h2, h3]

theorem boundListener_eq (env : Env) (dd : Devd) :
    bindListener env (applyDefaults env dd).Address (applyDefaults env dd).Port
      (decide ((applyDefaults env dd).CertFile ≠ "")) = boundListener env dd := by
  obtain ⟨h1, h2, _, _, _, _, _, _, h3, _, _⟩ := applyDefaults_fields env dd
  rw [h1, h2, h3]
  rfl

theorem boundListener_nonempty (env : Env) (dd : Devd) :
    ∃ a rest, (boundListener env dd).1 = a :: rest := by
  unfold boundListener bindListener
  split
  · exact ⟨_, _, rfl⟩
  · cases hf : env.netListen (listenAddr (listenAddress dd)
        (if decide (dd.CertFile ≠ "") = true then 443 else 80)) with
    | ok hl =>
      simp only [pickPort, hf]
      exact ⟨_, _, rfl⟩
    | error e =>
      simp only [pickPort, hf]
      exact ⟨_, _, rfl⟩

theorem boundListener_ok (env : Env) (dd : Devd) (hl : Listener)
    (h : (boundListener env dd).2 = .ok hl) :
    ∃ a, a ∈ (boundListener env dd).1 ∧
      env.netListen (listenAddr (listenAddress dd) a)
        = .ok hl := by
  unfold boundListener bindListener at h ⊢
  split at h
  · rename_i hp
    simp only [hp, if_true]
    exact ⟨_, by simp, h⟩
  · rename_i hp
    simp only [hp, if_false]
    obtain ⟨pre, a, hpre, ha, _⟩ := (pickPort_result env.netListen _ _ _ _).2.1 hl h
    exact ⟨a, by rw [hpre]; simp, ha⟩

theorem boundListener_error (env : Env) (dd : Devd) (e : String)
    (h : (boundListener env dd).2 = .error e) :
    (dd.Port > 0 →
      env.netListen (listenAddr (listenAddress dd) dd.Port)
        = .error e) ∧
    (¬ dd.Port > 0 → e = "Could not find open port.") := by
  unfold boundListener bindListener at h
  split at h
  · rename_i hp
    exact ⟨fun _ => h, fun hn => absurd hp hn⟩
  · rename_i hp
    exact ⟨fun hq => absurd hq hp, fun _ => ((pickPort_result env.netListen _ _ _ _).2.2 e h).1⟩

theorem boundListener_fails (env : Env) (dd : Devd)
    (h : (dd.Port > 0 ∧ ∃ e,
        env.netListen (listenAddr (listenAddress dd) dd.Port)
          = .error e) ∨
      (¬ dd.Port > 0 ∧ ∀ p ∈ portCandidates portLow portHigh (decide (dd.CertFile ≠ "")),
        ∃ e, env.netListen
          (listenAddr (listenAddress dd) p) = .error e)) :
    ∃ e, (boundListener env dd).2 = .error e := by
  unfold boundListener bindListener
  rcases h with ⟨hp, e, he⟩ | ⟨hp, hall⟩
  · simp only [hp, if_true]
    exact ⟨e, he⟩
  · simp only [hp, if_false]
    exact ⟨_, ((pickPort_error_iff env.netListen _ _ _ _).2 hall)⟩

theorem compileIgnores_error (c : String → Except String Regexp) (l : List String)
    (h : ∃ expr ∈ l, ∃ e, c expr = .error e) :
    ∃ e, (compileIgnores c l).2 = .error e := by
  induction l with
  | nil => simp at h
  | cons x xs ih =>
    cases hx : c x with
    | error e => exact ⟨e, by simp [compileIgnores, hx]⟩
    | ok v =>
      obtain ⟨expr, hmem, e, he⟩ := h
      rcases List.mem_cons.1 hmem with rfl | hmem
      · rw [hx] at he; cases he
      · obtain ⟨e2, he2⟩ := ih ⟨expr, hmem, e, he⟩
        exact ⟨e2, by simp [compileIgnores, hx, he2]⟩

theorem setRoutes_error (f : RouteCollection → String → Except String RouteCollection)
    (pre : List String) (s : String) (post : List String) (c0 coll : RouteCollection) (e : String)
    (hpre : (setRoutes f c0 pre).2 = .ok coll) (hs : f coll s = .error e) :
    (setRoutes f c0 (pre ++ s :: post)).2 = .error e := by
  induction pre generalizing c0 with
  | nil =>
    simp only [setRoutes] at hpre
    cases hpre
    simp [setRoutes, hs]
  | cons x xs ih =>
    cases hx : f c0 x with
    | error e2 => simp [setRoutes, hx] at hpre
    | ok c1 =>
      simp only [setRoutes, hx] at hpre
      simp only [List.cons_append, setRoutes, hx]
      exact ih c1 hpre

theorem boundListener_error_all (env : Env) (dd : Devd) (e : String)
    (h : (boundListener env dd).2 = .error e) :
    ∀ b ∈ (boundListener env dd).1, ∃ e2,
      env.netListen (listenAddr (listenAddress dd) b)
        = .error e2 := by
  unfold boundListener bindListener at h ⊢
  split at h
  · rename_i hp
    simp only [hp, if_true, List.mem_singleton]
    rintro b rfl
    exact ⟨e, h⟩
  · rename_i hp
    simp only [hp, if_false]
    exact ((pickPort_result env.netListen _ _ _ _).2.2 e h).2.2

theorem Serve_of_bind_error (env : Env) (dd : Devd) (e : String)
    (h : (boundListener env dd).2 = .error e) :
    Serve env dd = (startTrace dd ++ (boundListener env dd).1.map
        (ServeEvent.netListen (listenAddress dd)),
      Outcome.err ("Could not bind to port: " ++ e)) := by
  simp only [Serve, boundListener_eq, h, startTrace]
  simp only [(applyDefaults_fields env dd).2.2.2.2.2.2.2.2.1]

theorem Serve_of_compile_error (env : Env) (dd : Devd) (hl : Listener) (e : String)
    (hb : (boundListener env dd).2 = .ok hl)
    (hc : (compileIgnores env.regexpCompile dd.IgnoreLogs).2 = .error e) :
    Serve env dd = (startTrace dd ++ (boundListener env dd).1.map
        (ServeEvent.netListen (listenAddress dd))
        ++ [ServeEvent.makeTemplates "templates"]
        ++ (compileIgnores env.regexpCompile dd.IgnoreLogs).1.map ServeEvent.regexpCompile,
      Outcome.err e) := by
  simp only [Serve, boundListener_eq, hb, (applyDefaults_fields env dd).2.2.1, hc, startTrace]
  simp only [(applyDefaults_fields env dd).2.2.2.2.2.2.2.2.1]

theorem Serve_of_route_error (env : Env) (dd : Devd) (hl : Listener) (ignores : List Regexp)
    (e : String)
    (hb : (boundListener env dd).2 = .ok hl)
    (hc : (compileIgnores env.regexpCompile dd.IgnoreLogs).2 = .ok ignores)
    (hr : (setRoutes env.routeSet [] dd.Routes).2 = .error e) :
    Serve env dd = (startTrace dd ++ (boundListener env dd).1.map
        (ServeEvent.netListen (listenAddress dd))
        ++ [ServeEvent.makeTemplates "templates"]
        ++ (compileIgnores env.regexpCompile dd.IgnoreLogs).1.map ServeEvent.regexpCompile
        ++ (setRoutes env.routeSet [] dd.Routes).1.map ServeEvent.routeSet,
      Outcome.err ("Invalid route specification: " ++ e)) := by
  simp only [Serve, boundListener_eq, hb, (applyDefaults_fields env dd).2.2.1, hc,
    (applyDefaults_fields env dd).2.2.2.1, hr, startTrace]
  simp only [(applyDefaults_fields env dd).2.2.2.2.2.2.2.2.1]

theorem Serve_of_routes_ok (env : Env) (dd : Devd) (hl : Listener) (ignores : List Regexp)
    (routeColl : RouteCollection)
    (hb : (boundListener env dd).2 = .ok hl)
    (hc : (compileIgnores env.regexpCompile dd.IgnoreLogs).2 = .ok ignores)
    (hr : (setRoutes env.routeSet [] dd.Routes).2 = .ok routeColl) :
    Serve env dd = (startTrace dd ++ (boundListener env dd).1.map
        (ServeEvent.netListen (listenAddress dd))
        ++ [ServeEvent.makeTemplates "templates"]
        ++ (compileIgnores env.regexpCompile dd.IgnoreLogs).1.map ServeEvent.regexpCompile
        ++ (setRoutes env.routeSet [] dd.Routes).1.map ServeEvent.routeSet
        ++ (serveRoutes env (applyDefaults env dd) (decide (dd.CertFile ≠ "")) hl ignores
            routeColl).1,
      (serveRoutes env (applyDefaults env dd) (decide (dd.CertFile ≠ "")) hl ignores
        routeColl).2) := by
  simp only [Serve, boundListener_eq, hb, (applyDefaults_fields env dd).2.2.1, hc,
    (applyDefaults_fields env dd).2.2.2.1, hr, startTrace]
  simp only [(applyDefaults_fields env dd).2.2.2.2.2.2.2.2.1, (applyDefaults_fields env dd).2.1]

theorem startTrace_events (dd : Devd) :
    ∀ ev ∈ startTrace dd, ∃ c, ev = ServeEvent.loggerEnable c := by
  intro ev hev
  unfold startTrace at hev
  by_cases h1 : dd.Debug = true <;> by_cases h2 : dd.EnableTimer = true <;>
    simp [h1, h2] at hev <;> aesop

/-- C1, as the code has it: when some `IgnoreLogs` entry does not compile or
some route specification is rejected by `RouteCollection.Set`, `Serve` returns
a non-nil error, and nothing is registered or served. The listening step
comes first, though: the first call after the logger set-up is `net.Listen`,
so either the error is the bind error or a listener has been opened by the
time the error is returned. -/
theorem Serve_config_error_after_listen (env : Env) (dd : Devd)
    (h : (∃ expr ∈ dd.IgnoreLogs, ∃ e, env.regexpCompile expr = .error e) ∨
      (∃ pre s post coll e, dd.Routes = pre ++ s :: post ∧
        (setRoutes env.routeSet [] pre).2 = .ok coll ∧ env.routeSet coll s = .error e)) :
    ∃ msg, (Serve env dd).2 = Outcome.err msg ∧
      (∃ p rest, (Serve env dd).1
        = startTrace dd ++ ServeEvent.netListen (listenAddress dd) p :: rest) ∧
      ((∃ e, (boundListener env dd).2 = .error e ∧ msg = "Could not bind to port: " ++ e) ∨
        (∃ p hl, ServeEvent.netListen (listenAddress dd) p ∈ (Serve env dd).1 ∧
          env.netListen (listenAddr (listenAddress dd) p) = .ok hl)) ∧
      (∀ ev ∈ (Serve env dd).1,
        (∃ c, ev = ServeEvent.loggerEnable c) ∨ (∃ a p, ev = ServeEvent.netListen a p) ∨
        ev = ServeEvent.makeTemplates "templates" ∨ (∃ x, ev = ServeEvent.regexpCompile x) ∨
        (∃ s, ev = ServeEvent.routeSet s)) := by
  have hstart := startTrace_events dd
  obtain ⟨a0, rest0, hne⟩ := boundListener_nonempty env dd
  cases hb : (boundListener env dd).2 with
  | error e =>
    rw [Serve_of_bind_error env dd e hb]
    refine ⟨_, rfl, ⟨a0, rest0.map (ServeEvent.netListen (listenAddress dd)), by simp [hne]⟩,
      Or.inl ⟨e, rfl, rfl⟩, ?_⟩
    intro ev hev
    simp only [List.mem_append, List.mem_map] at hev
    rcases hev with hev | ⟨a, _, rfl⟩
    · exact Or.inl (hstart ev hev)
    · exact Or.inr (Or.inl ⟨_, a, rfl⟩)
  | ok hl =>
    obtain ⟨a1, ha1, hok⟩ := boundListener_ok env dd hl hb
    cases hc : (compileIgnores env.regexpCompile dd.IgnoreLogs).2 with
    | error e =>
      rw [Serve_of_compile_error env dd hl e hb hc]
      refine ⟨_, rfl, ⟨a0, rest0.map (ServeEvent.netListen (listenAddress dd))
          ++ [ServeEvent.makeTemplates "templates"]
          ++ (compileIgnores env.regexpCompile dd.IgnoreLogs).1.map ServeEvent.regexpCompile,
        by simp [hne]⟩, Or.inr ⟨a1, hl, ?_, hok⟩, ?_⟩
      · simp only [List.mem_append, List.mem_map]
        exact Or.inl (Or.inl (Or.inr ⟨a1, ha1, rfl⟩))
      · intro ev hev
        simp only [List.mem_append, List.mem_map, List.mem_singleton] at hev
        rcases hev with ((hev | ⟨a, _, rfl⟩) | rfl) | ⟨x, _, rfl⟩
        · exact Or.inl (hstart ev hev)
        · exact Or.inr (Or.inl ⟨_, a, rfl⟩)
        · exact Or.inr (Or.inr (Or.inl rfl))
        · exact Or.inr (Or.inr (Or.inr (Or.inl ⟨x, rfl⟩)))
    | ok ignores =>
      have hroute : ∃ e, (setRoutes env.routeSet [] dd.Routes).2 = .error e := by
        rcases h with hre | ⟨pre, s, post, coll, e, hR, hpre, hs⟩
        · obtain ⟨e, he⟩ := compileIgnores_error _ _ hre
          rw [hc] at he
          cases he
        · exact ⟨e, by rw [hR]; exact setRoutes_error _ pre s post [] coll e hpre hs⟩
      obtain ⟨e, hr⟩ := hroute
      rw [Serve_of_route_error env dd hl ignores e hb hc hr]
      refine ⟨_, rfl, ⟨a0, rest0.map (ServeEvent.netListen (listenAddress dd))
          ++ [ServeEvent.makeTemplates "templates"]
          ++ (compileIgnores env.regexpCompile dd.IgnoreLogs).1.map ServeEvent.regexpCompile
          ++ (setRoutes env.routeSet [] dd.Routes).1.map ServeEvent.routeSet,
        by simp [hne]⟩, Or.inr ⟨a1, hl, ?_, hok⟩, ?_⟩
      · simp only [List.mem_append, List.mem_map]
        exact Or.inl (Or.inl (Or.inl (Or.inr ⟨a1, ha1, rfl⟩)))
      · intro ev hev
        simp only [List.mem_append, List.mem_map, List.mem_singleton] at hev
        rcases hev with (((hev | ⟨a, _, rfl⟩) | rfl) | ⟨x, _, rfl⟩) | ⟨x, _, rfl⟩
        · exact Or.inl (hstart ev hev)
        · exact Or.inr (Or.inl ⟨_, a, rfl⟩)
        · exact Or.inr (Or.inr (Or.inl rfl))
        · exact Or.inr (Or.inr (Or.inr (Or.inl ⟨x, rfl⟩)))
        · exact Or.inr (Or.inr (Or.inr (Or.inr ⟨x, rfl⟩)))

/-- C1 witness: with the ignore expression `(`, which does not compile,
`Serve` returns an error. -/
theorem Serve_config_error_after_listen_witness :
    (∃ expr ∈ badRegexpOptions.IgnoreLogs, ∃ e, sampleEnv.regexpCompile expr = .error e) ∧
    ∃ msg, (Serve sampleEnv badRegexpOptions).2 = Outcome.err msg :=
  ⟨⟨"(", by decide, _, rfl⟩,
    (Serve_config_error_after_listen sampleEnv badRegexpOptions
      (Or.inl ⟨"(", by decide, _, rfl⟩)).imp (fun _ h => h.1)⟩

/-- C1 counterexample: with an ignore expression that does not compile, and
with a route specification that is rejected, `Serve` returns the
configuration error after `net.Listen` has been called and has returned a
listener. -/
theorem Serve_listens_before_config_error :
    (Serve sampleEnv badRegexpOptions).2
      = Outcome.err "error parsing regexp: missing closing )" ∧
    (Serve sampleEnv badRegexpOptions).1
      = [ServeEvent.netListen "127.0.0.1" 8001, ServeEvent.makeTemplates "templates",
          ServeEvent.regexpCompile "("] ∧
    (Serve sampleEnv badRouteOptions).2
      = Outcome.err "Invalid route specification: Invalid specification" ∧
    (Serve sampleEnv badRouteOptions).1
      = [ServeEvent.netListen "127.0.0.1" 8001, ServeEvent.makeTemplates "templates",
          ServeEvent.routeSet "=x"] ∧
    sampleEnv.netListen (listenAddr "127.0.0.1" 8001)
      = .ok (Listener.tcp "127.0.0.1:8001" 8001) := by
  refine ⟨by decide, rfl, by decide, rfl, rfl⟩

/-- C7: when no listening port can be bound (the configured positive port
fails to bind, or automatic selection finds the default port and every port of
the range unavailable), `Serve` returns the error "Could not bind to port: "
followed by the error of the listening step (the error of `net.Listen` for a
configured port, the error of `pickPort` otherwise); all it has done is
enable logger categories and make failed `net.Listen` calls, so nothing is
served. -/
theorem Serve_bind_failure_reports_cause (env : Env) (dd : Devd)
    (h : (dd.Port > 0 ∧ ∃ e,
        env.netListen (listenAddr (listenAddress dd) dd.Port) = .error e) ∨
      (¬ dd.Port > 0 ∧ ∀ p ∈ portCandidates portLow portHigh (decide (dd.CertFile ≠ "")),
        ∃ e, env.netListen (listenAddr (listenAddress dd) p) = .error e)) :
    ∃ e, (Serve env dd).2 = Outcome.err ("Could not bind to port: " ++ e) ∧
      (dd.Port > 0 → env.netListen (listenAddr (listenAddress dd) dd.Port) = .error e) ∧
      (¬ dd.Port > 0 → e = "Could not find open port.") ∧
      (∀ ev ∈ (Serve env dd).1,
        (∃ c, ev = ServeEvent.loggerEnable c) ∨
        (∃ p, ev = ServeEvent.netListen (listenAddress dd) p ∧
          ∃ e2, env.netListen (listenAddr (listenAddress dd) p) = .error e2)) ∧
      (∀ addr hl, ServeEvent.serve addr hl ∉ (Serve env dd).1) := by
  obtain ⟨e, he⟩ := boundListener_fails env dd h
  have hev : ∀ ev ∈ (Serve env dd).1,
      (∃ c, ev = ServeEvent.loggerEnable c) ∨
      (∃ p, ev = ServeEvent.netListen (listenAddress dd) p ∧
        ∃ e2, env.netListen (listenAddr (listenAddress dd) p) = .error e2) := by
    rw [Serve_of_bind_error env dd e he]
    intro ev hev
    simp only [List.mem_append, List.mem_map] at hev
    rcases hev with hev | ⟨a, ha, rfl⟩
    · exact Or.inl (startTrace_events dd ev hev)
    · exact Or.inr ⟨a, rfl, boundListener_error_all env dd e he a ha⟩
  refine ⟨e, by rw [Serve_of_bind_error env dd e he], (boundListener_error env dd e he).1,
    (boundListener_error env dd e he).2, hev, ?_⟩
  intro addr hl hmem
  rcases hev _ hmem with ⟨c, hc⟩ | ⟨a, ha, _⟩
  · cases hc
  · cases ha

/-- C7 witness: port 9000 cannot be bound in the sample network, and `Serve`
returns the bind error with the error of `net.Listen`. -/
theorem Serve_bind_failure_reports_cause_witness :
    (busyPortOptions.Port > 0 ∧
      sampleEnv.netListen (listenAddr (listenAddress busyPortOptions) busyPortOptions.Port)
        = .error "listen tcp 127.0.0.1:9000: bind: address already in use") ∧
    (Serve sampleEnv busyPortOptions).2
      = Outcome.err "Could not bind to port: listen tcp 127.0.0.1:9000: bind: address already in use" :=
  have hp : busyPortOptions.Port > 0 := by decide
  have hw := Serve_bind_failure_reports_cause sampleEnv busyPortOptions (Or.inl ⟨hp, _, rfl⟩)
  ⟨⟨hp, rfl⟩, by
    obtain ⟨e, h1, h2, _⟩ := hw
    have he := h2 hp
    have hx : sampleEnv.netListen
        (listenAddr (listenAddress busyPortOptions) busyPortOptions.Port)
        = .error "listen tcp 127.0.0.1:9000: bind: address already in use" := rfl
    rw [hx] at he
    cases he
    exact h1⟩

theorem serveTail_slow (env : Env) (dd : Devd) (tlsEnabled : Bool) (hl h : Listener)
    (u d : Int) :
    ServeEvent.newSlowListener h u d ∈ (serveTail env dd tlsEnabled hl).1 ↔
      h = hl ∧ u = rateOfKbps dd.UpKbps ∧ d = rateOfKbps dd.DownKbps := by
  unfold serveTail
  cases env.serverServe <;> by_cases hb : dd.OpenBrowser = true <;> simp [hb]

theorem serveTail_serve (env : Env) (dd : Devd) (tlsEnabled : Bool) (hl served : Listener)
    (addr : String) :
    ServeEvent.serve addr served ∈ (serveTail env dd tlsEnabled hl).1 ↔
      addr = (Listener.slow hl (rateOfKbps dd.UpKbps) (rateOfKbps dd.DownKbps)).AddrString ∧
      served = Listener.slow hl (rateOfKbps dd.UpKbps) (rateOfKbps dd.DownKbps) := by
  unfold serveTail
  cases env.serverServe <;> by_cases hb : dd.OpenBrowser = true <;> simp [hb]

theorem serveTail_outcome (env : Env) (dd : Devd) (tlsEnabled : Bool) (hl : Listener) :
    ∀ msg, (serveTail env dd tlsEnabled hl).2 ≠ Outcome.err msg := by
  intro msg
  unfold serveTail
  cases env.serverServe <;> simp

theorem serveRoutes_registers (env : Env) (dd : Devd) (tlsEnabled : Bool) (hl : Listener)
    (ignores : List Regexp) (routeColl : RouteCollection) :
    ∃ rest, (serveRoutes env dd tlsEnabled hl ignores routeColl).1 =
      routeColl.map (fun (kv : String × Route) =>
        ServeEvent.muxHandle kv.1
          (StripPrefix kv.2.Path
            (devdHandler env.regexpMatchString kv.2 dd.LogHeaders ignores (livereloadEnabled dd)
              dd.Latency))) ++ rest := by
  unfold serveRoutes
  simp only []
  repeat' split
  all_goals exact ⟨_, by simp only [List.append_assoc]; rfl⟩

theorem all_isSetup_registrations (f : String × Route → Handler HEvent)
    (l : RouteCollection) :
    (l.map (fun kv => ServeEvent.muxHandle kv.1 (f kv))).all ServeEvent.isSetup = true := by
  induction l with
  | nil => rfl
  | cons x xs ih =>
    simp only [List.map_cons, List.all_cons, ih, Bool.and_true]
    rfl

theorem serveRoutes_shape (env : Env) (dd : Devd) (tlsEnabled : Bool) (hl : Listener)
    (ignores : List Regexp) (routeColl : RouteCollection) :
    (∃ msg, (serveRoutes env dd tlsEnabled hl ignores routeColl).2 = Outcome.err msg ∧
      (serveRoutes env dd tlsEnabled hl ignores routeColl).1.all ServeEvent.isSetup = true) ∨
    (∃ inner pre, shapedInner env dd.CertFile hl = some inner ∧
      serveRoutes env dd tlsEnabled hl ignores routeColl
        = (pre ++ (serveTail env dd tlsEnabled inner).1, (serveTail env dd tlsEnabled inner).2) ∧
      pre.all ServeEvent.isSetup = true) := by
  unfold serveRoutes
  simp only []
  repeat' split
  all_goals first
    | (left
       refine ⟨_, rfl, ?_⟩
       simp only [List.all_append, all_isSetup_registrations, Bool.true_and]
       rfl)
    | (right
       refine ⟨_, _, ?_, rfl, ?_⟩
       · simp [shapedInner, *]
       · simp only [List.all_append, all_isSetup_registrations, Bool.true_and]
         rfl)

theorem Serve_shape (env : Env) (dd : Devd) :
    (∃ msg, (Serve env dd).2 = Outcome.err msg ∧
      ∀ ev ∈ (Serve env dd).1, ev.isSetup = true) ∨
    (∃ hl inner pre, (boundListener env dd).2 = .ok hl ∧
      shapedInner env dd.CertFile hl = some inner ∧
      Serve env dd
        = (pre ++ (serveTail env (applyDefaults env dd) (decide (dd.CertFile ≠ "")) inner).1,
            (serveTail env (applyDefaults env dd) (decide (dd.CertFile ≠ "")) inner).2) ∧
      ∀ ev ∈ pre, ev.isSetup = true) := by
  have hstart : ∀ ev ∈ startTrace dd, ev.isSetup = true := by
    intro ev hev
    obtain ⟨c, rfl⟩ := startTrace_events dd ev hev
    rfl
  cases hb : (boundListener env dd).2 with
  | error e =>
    left
    rw [Serve_of_bind_error env dd e hb]
    refine ⟨_, rfl, ?_⟩
    intro ev hev
    simp only [List.mem_append, List.mem_map] at hev
    rcases hev with hev | ⟨a, _, rfl⟩
    · exact hstart ev hev
    · rfl
  | ok hl =>
    cases hc : (compileIgnores env.regexpCompile dd.IgnoreLogs).2 with
    | error e =>
      left
      rw [Serve_of_compile_error env dd hl e hb hc]
      refine ⟨_, rfl, ?_⟩
      intro ev hev
      simp only [List.mem_append, List.mem_map, List.mem_singleton] at hev
      rcases hev with ((hev | ⟨a, _, rfl⟩) | rfl) | ⟨x, _, rfl⟩
      · exact hstart ev hev
      · rfl
      · rfl
      · rfl
    | ok ignores =>
      cases hr : (setRoutes env.routeSet [] dd.Routes).2 with
      | error e =>
        left
        rw [Serve_of_route_error env dd hl ignores e hb hc hr]
        refine ⟨_, rfl, ?_⟩
        intro ev hev
        simp only [List.mem_append, List.mem_map, List.mem_singleton] at hev
        rcases hev with (((hev | ⟨a, _, rfl⟩) | rfl) | ⟨x, _, rfl⟩) | ⟨x, _, rfl⟩
        · exact hstart ev hev
        · rfl
        · rfl
        · rfl
        · rfl
      | ok routeColl =>
        have hpre : ∀ ev ∈ startTrace dd
            ++ (boundListener env dd).1.map (ServeEvent.netListen (listenAddress dd))
            ++ [ServeEvent.makeTemplates "templates"]
            ++ (compileIgnores env.regexpCompile dd.IgnoreLogs).1.map ServeEvent.regexpCompile
            ++ (setRoutes env.routeSet [] dd.Routes).1.map ServeEvent.routeSet,
            ev.isSetup = true := by
          intro ev hev
          simp only [List.mem_append, List.mem_map, List.mem_singleton] at hev
          rcases hev with (((hev | ⟨a, _, rfl⟩) | rfl) | ⟨x, _, rfl⟩) | ⟨x, _, rfl⟩
          · exact hstart ev hev
          · rfl
          · rfl
          · rfl
          · rfl
        have hcert := (applyDefaults_fields env dd).2.1
        rw [Serve_of_routes_ok env dd hl ignores routeColl hb hc hr]
        generalize startTrace dd
            ++ (boundListener env dd).1.map (ServeEvent.netListen (listenAddress dd))
            ++ [ServeEvent.makeTemplates "templates"]
            ++ (compileIgnores env.regexpCompile dd.IgnoreLogs).1.map ServeEvent.regexpCompile
            ++ (setRoutes env.routeSet [] dd.Routes).1.map ServeEvent.routeSet = t4 at hpre ⊢
        rcases serveRoutes_shape env (applyDefaults env dd) (decide (dd.CertFile ≠ "")) hl
            ignores routeColl with ⟨msg, herr, hall0⟩ | ⟨inner, pre, hin, heq, hall0⟩
        all_goals have hall := List.all_eq_true.1 hall0
        · left
          refine ⟨msg, herr, ?_⟩
          intro ev hev
          rcases List.mem_append.1 hev with h | h
          · exact hpre ev h
          · exact hall ev h
        · right
          rw [hcert] at hin
          refine ⟨hl, inner, t4 ++ pre, rfl, hin, ?_, ?_⟩
          · rw [heq, List.append_assoc]
          · intro ev hev
            rcases List.mem_append.1 hev with h | h
            · exact hpre ev h
            · exact hall ev h

theorem float64OfNat_exact (n : Nat) (h : n ≤ 2 ^ 53) : float64OfNat n = n := by
  rcases Nat.lt_or_ge n (2 ^ 53) with hlt | hge
  · unfold float64OfNat
    rw [if_pos hlt]
  · have hn : n = 2 ^ 53 := Nat.le_antisymm h hge
    subst hn
    have hlog : Nat.log 2 (2 ^ 53) = 53 := Nat.log_pow (by norm_num) 53
    unfold float64OfNat
    simp only [lt_irrefl, if_false, hlog]
    norm_num

theorem rateOfKbps_exact (k : Int) (h1 : -(2 ^ 53) ≤ k) (h2 : k ≤ 2 ^ 53) :
    rateOfKbps k = k * 1024 := by
  have hn : k.natAbs ≤ 2 ^ 53 := by omega
  unfold rateOfKbps float64OfInt
  rw [float64OfNat_exact _ hn]
  split <;> congr 1 <;> omega

/-- C5: in `Serve`, each direction on its own, a configured rate of 0 is
replaced by `slowdown.MaxRate` and any other rate is kept. The listener handed
to `slowdown.NewSlowListener` is the bound listener (under `tls.NewListener`
when a certificate file is configured), with `float64(UpKbps)*1024` as its
upload rate and `float64(DownKbps)*1024` as its download rate, in that order;
the listener that `server.Serve` is called on is that wrapped listener; and
whenever `Serve` does not return an error it has wrapped the bound listener
and served the wrapped one. The `float64` product is the integer product
`kbps * 1024` for every rate of magnitude at most `2^53`. -/
theorem Serve_slow_listener_rates (env : Env) (dd : Devd) :
    (∀ inner up down, ServeEvent.newSlowListener inner up down ∈ (Serve env dd).1 →
      up = rateOfKbps (if dd.UpKbps = 0 then env.MaxRate else dd.UpKbps) ∧
      down = rateOfKbps (if dd.DownKbps = 0 then env.MaxRate else dd.DownKbps) ∧
      ∃ hl, (boundListener env dd).2 = .ok hl ∧ shapedInner env dd.CertFile hl = some inner) ∧
    (∀ addr served, ServeEvent.serve addr served ∈ (Serve env dd).1 →
      ∃ hl inner, (boundListener env dd).2 = .ok hl ∧
        shapedInner env dd.CertFile hl = some inner ∧
        served = Listener.slow inner
          (rateOfKbps (if dd.UpKbps = 0 then env.MaxRate else dd.UpKbps))
          (rateOfKbps (if dd.DownKbps = 0 then env.MaxRate else dd.DownKbps)) ∧
        addr = served.AddrString ∧
        ServeEvent.newSlowListener inner
          (rateOfKbps (if dd.UpKbps = 0 then env.MaxRate else dd.UpKbps))
          (rateOfKbps (if dd.DownKbps = 0 then env.MaxRate else dd.DownKbps))
          ∈ (Serve env dd).1) ∧
    ((∀ msg, (Serve env dd).2 ≠ Outcome.err msg) →
      ∃ hl inner, (boundListener env dd).2 = .ok hl ∧
        shapedInner env dd.CertFile hl = some inner ∧
        ServeEvent.newSlowListener inner
          (rateOfKbps (if dd.UpKbps = 0 then env.MaxRate else dd.UpKbps))
          (rateOfKbps (if dd.DownKbps = 0 then env.MaxRate else dd.DownKbps))
          ∈ (Serve env dd).1 ∧
        ServeEvent.serve inner.AddrString
          (Listener.slow inner
            (rateOfKbps (if dd.UpKbps = 0 then env.MaxRate else dd.UpKbps))
            (rateOfKbps (if dd.DownKbps = 0 then env.MaxRate else dd.DownKbps)))
          ∈ (Serve env dd).1) ∧
    (∀ k : Int, -(2 ^ 53) ≤ k → k ≤ 2 ^ 53 → rateOfKbps k = k * 1024) := by
  have hup := (applyDefaults_fields env dd).2.2.2.2.2.2.2.2.2.1
  have hdown := (applyDefaults_fields env dd).2.2.2.2.2.2.2.2.2.2
  have hslowIn : ∀ (inner : Listener) (pre : List ServeEvent),
      (∀ ev ∈ pre, ServeEvent.isSetup ev = true) →
      ServeEvent.newSlowListener inner
        (rateOfKbps (if dd.UpKbps = 0 then env.MaxRate else dd.UpKbps))
        (rateOfKbps (if dd.DownKbps = 0 then env.MaxRate else dd.DownKbps))
        ∈ pre ++ (serveTail env (applyDefaults env dd) (decide (dd.CertFile ≠ "")) inner).1 ∧
      ServeEvent.serve inner.AddrString
        (Listener.slow inner
          (rateOfKbps (if dd.UpKbps = 0 then env.MaxRate else dd.UpKbps))
          (rateOfKbps (if dd.DownKbps = 0 then env.MaxRate else dd.DownKbps)))
        ∈ pre ++ (serveTail env (applyDefaults env dd) (decide (dd.CertFile ≠ "")) inner).1 := by
    intro inner pre _
    constructor
    · apply List.mem_append_right
      rw [serveTail_slow, hup, hdown]
      exact ⟨rfl, rfl, rfl⟩
    · apply List.mem_append_right
      rw [serveTail_serve, hup, hdown]
      exact ⟨rfl, rfl⟩
  refine ⟨?_, ?_, ?_, rateOfKbps_exact⟩
  · intro inner2 up down hmem
    rcases Serve_shape env dd with ⟨msg, _, hall⟩ | ⟨hl, inner, pre, hb, hin, heq, hall⟩
    · have := hall _ hmem
      simp [ServeEvent.isSetup] at this
    · rw [heq] at hmem
      rcases List.mem_append.1 hmem with h | h
      · have := hall _ h
        simp [ServeEvent.isSetup] at this
      · rw [serveTail_slow, hup, hdown] at h
        obtain ⟨rfl, h2, h3⟩ := h
        exact ⟨h2, h3, hl, hb, hin⟩
  · intro addr served hmem
    rcases Serve_shape env dd with ⟨msg, _, hall⟩ | ⟨hl, inner, pre, hb, hin, heq, hall⟩
    · have := hall _ hmem
      simp [ServeEvent.isSetup] at this
    · rw [heq] at hmem ⊢
      rcases List.mem_append.1 hmem with h | h
      · have := hall _ h
        simp [ServeEvent.isSetup] at this
      · rw [serveTail_serve, hup, hdown] at h
        obtain ⟨h1, h2⟩ := h
        refine ⟨hl, inner, hb, hin, h2, ?_, (hslowIn inner pre hall).1⟩
        rw [h1, h2]
  · intro hne
    rcases Serve_shape env dd with ⟨msg, herr, _⟩ | ⟨hl, inner, pre, hb, hin, heq, hall⟩
    · exact absurd herr (hne msg)
    · rw [heq]
      exact ⟨hl, inner, hb, hin, (hslowIn inner pre hall).1, (hslowIn inner pre hall).2⟩

/-- C5 witness: with an upload limit of 7 and no download limit, the bound
listener of port 8001 is wrapped with the rates 7 * 1024 and `MaxRate` * 1024,
and the wrapped listener is the one served. -/
theorem Serve_slow_listener_rates_witness :
    (∀ msg, (Serve sampleEnv sampleOptions).2 ≠ Outcome.err msg) ∧
    ServeEvent.newSlowListener (Listener.tcp "127.0.0.1:8001" 8001) 7168 1073741824000
      ∈ (Serve sampleEnv sampleOptions).1 ∧
    ServeEvent.serve "127.0.0.1:8001"
        (Listener.slow (Listener.tcp "127.0.0.1:8001" 8001) 7168 1073741824000)
      ∈ (Serve sampleEnv sampleOptions).1 := by
  have hne : ∀ msg, (Serve sampleEnv sampleOptions).2 ≠ Outcome.err msg := by
    have hs : (Serve sampleEnv sampleOptions).2 = Outcome.serving := by decide
    intro msg h
    rw [hs] at h
    cases h
  obtain ⟨hl, inner, hb, hin, h1, h2⟩ :=
    (Serve_slow_listener_rates sampleEnv sampleOptions).2.2.1 hne
  have hb2 : (boundListener sampleEnv sampleOptions).2
      = .ok (Listener.tcp "127.0.0.1:8001" 8001) := rfl
  rw [hb2] at hb
  cases hb
  have hin2 : shapedInner sampleEnv sampleOptions.CertFile (Listener.tcp "127.0.0.1:8001" 8001)
      = some (Listener.tcp "127.0.0.1:8001" 8001) := rfl
  rw [hin2] at hin
  cases hin
  exact ⟨hne, h1, h2⟩

/-! ## The per-request handler: properties -/

theorem devdHandler_trace (matchString : Regexp → String → Bool) (route : Route)
    (logHeaders : Bool) (ignoreHeaders : List Regexp) (livereload : Bool) (latency : Int)
    (r : Request) :
    ∃ sublog, devdHandler matchString route logHeaders ignoreHeaders livereload latency r =
      [HEvent.timerRequestHeaders, HEvent.sleep (sleepDuration latency),
        HEvent.say sublog r.Method r.URLPath]
      ++ (if logHeaders = true then [HEvent.logHeader sublog r.Header] else [])
      ++ [HEvent.endpointServe route.Endpoint
            (if livereload = true then injectLivereload else CopyInject.zero) sublog logHeaders r,
          HEvent.sayTimer sublog, HEvent.done sublog] :=
  ⟨_, rfl⟩

theorem sleepDuration_exact (latency : Int) (h1 : -9223372036854 ≤ latency)
    (h2 : latency ≤ 9223372036854) : sleepDuration latency = latency * 1000000 := by
  unfold sleepDuration wrapInt64 Millisecond
  norm_num
  omega

/-- C6, as the code has it: for every request, the handler returned by
`devdHandler` with latency `L` calls `time.Sleep` exactly once, with
`time.Millisecond * time.Duration(L)`, and calls the endpoint's
`ServeHTTPContext` once, after the sleep and not before it. The pause is
`L` milliseconds for `0 <= L <= 9223372036854`; there is no pause for
`-9223372036854 <= L <= 0`, since `time.Sleep` returns at once for a duration
that is not positive. -/
theorem devdHandler_sleeps_once_before_endpoint (matchString : Regexp → String → Bool)
    (route : Route) (logHeaders : Bool) (ignoreHeaders : List Regexp) (livereload : Bool)
    (latency : Int) (r : Request) :
    (∃ pre post,
      devdHandler matchString route logHeaders ignoreHeaders livereload latency r
        = pre ++ HEvent.sleep (sleepDuration latency) :: post ∧
      (∀ ev ∈ pre, ∀ d, ev ≠ HEvent.sleep d) ∧
      (∀ ev ∈ post, ∀ d, ev ≠ HEvent.sleep d) ∧
      (∀ ev ∈ pre, ∀ ep ci sl lh rq, ev ≠ HEvent.endpointServe ep ci sl lh rq) ∧
      (∃ ci sl, HEvent.endpointServe route.Endpoint ci sl logHeaders r ∈ post)) ∧
    (-9223372036854 ≤ latency → latency ≤ 9223372036854 →
      sleepDuration latency = latency * Millisecond) ∧
    (0 ≤ latency → latency ≤ 9223372036854 →
      sleptNanoseconds (sleepDuration latency) = latency * Millisecond) ∧
    (-9223372036854 ≤ latency → latency ≤ 0 →
      sleptNanoseconds (sleepDuration latency) = 0) := by
  refine ⟨?_, fun h1 h2 => sleepDuration_exact latency h1 h2, ?_, ?_⟩
  · obtain ⟨sublog, htrace⟩ :=
      devdHandler_trace matchString route logHeaders ignoreHeaders livereload latency r
    refine ⟨[HEvent.timerRequestHeaders],
      [HEvent.say sublog r.Method r.URLPath]
        ++ (if logHeaders = true then [HEvent.logHeader sublog r.Header] else [])
        ++ [HEvent.endpointServe route.Endpoint
              (if livereload = true then injectLivereload else CopyInject.zero) sublog logHeaders r,
            HEvent.sayTimer sublog, HEvent.done sublog], ?_, ?_, ?_, ?_, ?_⟩
    · rw [htrace]; simp
    · intro ev hev d
      simp only [List.mem_singleton] at hev
      subst hev
      simp
    · intro ev hev d hd
      subst hd
      cases logHeaders <;> simp at hev
    · intro ev hev ep ci sl lh rq
      simp only [List.mem_singleton] at hev
      subst hev
      simp
    · exact ⟨if livereload = true then injectLivereload else CopyInject.zero, sublog, by simp⟩
  · intro h1 h2
    rw [sleepDuration_exact latency (by omega) h2]
    unfold sleptNanoseconds Millisecond
    split
    · omega
    · rfl
  · intro h1 h2
    rw [sleepDuration_exact latency h1 (by omega)]
    unfold sleptNanoseconds
    split
    · rfl
    · omega

/-- C6 witness: with a latency of 5 the handler pauses 5 000 000 ns. -/
theorem devdHandler_sleeps_once_before_endpoint_witness :
    (0 : Int) ≤ 5 ∧ (5 : Int) ≤ 9223372036854 ∧
    sleptNanoseconds (sleepDuration 5) = 5 * Millisecond :=
  ⟨by decide, by decide,
    (devdHandler_sleeps_once_before_endpoint (fun _ _ => false) sampleRoute false [] false 5
      sampleRequest).2.2.1 (by decide) (by decide)⟩

/-- C6 counterexample: with the latency -1 the handler calls
`time.Sleep(-1000000)`, and with the latency 9223372036855 the product
overflows `int64` and the handler calls `time.Sleep(-9223372036854551616)`;
both calls return at once, so the handler does not delay for `L`
milliseconds. -/
theorem devdHandler_no_delay_for_negative_or_huge_latency :
    devdHandler (fun _ _ => false) sampleRoute false [] false (-1) sampleRequest
      = [HEvent.timerRequestHeaders, HEvent.sleep (-1000000),
          HEvent.say Sublog.group "GET" "/assets/img.png",
          HEvent.endpointServe (Endpoint.StaticDir "./public") CopyInject.zero Sublog.group false
            sampleRequest,
          HEvent.sayTimer Sublog.group, HEvent.done Sublog.group] ∧
    sleptNanoseconds (-1000000) = 0 ∧
    sleptNanoseconds (-1000000) ≠ -1 * Millisecond ∧
    devdHandler (fun _ _ => false) sampleRoute false [] false 9223372036855 sampleRequest
      = [HEvent.timerRequestHeaders, HEvent.sleep (-9223372036854551616),
          HEvent.say Sublog.group "GET" "/assets/img.png",
          HEvent.endpointServe (Endpoint.StaticDir "./public") CopyInject.zero Sublog.group false
            sampleRequest,
          HEvent.sayTimer Sublog.group, HEvent.done Sublog.group] ∧
    sleptNanoseconds (-9223372036854551616) = 0 ∧
    sleptNanoseconds (-9223372036854551616) ≠ 9223372036855 * Millisecond := by
  refine ⟨by decide, by decide, by decide, by decide, by decide, by decide⟩

theorem trimPrefix_append (pfx rest : String) : trimPrefix (pfx ++ rest) pfx = rest := by
  unfold trimPrefix
  have h : (pfx ++ rest).toList = pfx.toList ++ rest.toList := by simp
  rw [h]
  have hp : pfx.toList.isPrefixOf (pfx.toList ++ rest.toList) = true := by
    rw [List.isPrefixOf_iff_prefix]
    exact List.prefix_append _ _
  rw [if_pos hp, List.drop_left]
  rfl

theorem trimPrefix_empty (pfx : String) : trimPrefix "" pfx = "" := by
  unfold trimPrefix
  split
  · have h0 : ("" : String).toList = [] := rfl
    rw [h0, List.drop_nil]
  · rfl

theorem trimPrefix_length_lt (pfx rest : String) (hp : pfx ≠ "") :
    (trimPrefix (pfx ++ rest) pfx).toList.length < (pfx ++ rest).toList.length := by
  rw [trimPrefix_append]
  have hne : pfx.toList ≠ [] := by
    intro h0
    apply hp
    cases pfx
    simp_all
  have : 0 < pfx.toList.length := List.length_pos.2 hne
  have h2 : (pfx ++ rest).toList = pfx.toList ++ rest.toList := by simp
  rw [h2, List.length_append]
  omega

theorem StripPrefix_strips (pfx : String) (h : Handler HEvent) (r : Request) (rest : String)
    (hr : r.URLPath = pfx ++ rest) (hraw : r.URLRawPath = "") :
    StripPrefix pfx h r = h { r with URLPath := rest } := by
  unfold StripPrefix
  by_cases hp : pfx = ""
  · subst hp
    have : r.URLPath = rest := by rw [hr]; simp
    rw [if_pos rfl, ← this]
  · rw [if_neg hp]
    have hlen : (trimPrefix r.URLPath pfx).toList.length < r.URLPath.toList.length := by
      rw [hr]
      exact trimPrefix_length_lt pfx rest hp
    simp only [hlen, hraw, true_or, and_self, if_true, trimPrefix_empty]
    rw [hr, trimPrefix_append]

theorem StripPrefix_strips_raw (pfx : String) (h : Handler HEvent) (r : Request)
    (rest rawRest : String)
    (hr : r.URLPath = pfx ++ rest) (hraw : r.URLRawPath = pfx ++ rawRest) :
    StripPrefix pfx h r = h { r with URLPath := rest, URLRawPath := rawRest } := by
  unfold StripPrefix
  by_cases hp : pfx = ""
  · subst hp
    have h1 : r.URLPath = rest := by rw [hr]; simp
    have h2 : r.URLRawPath = rawRest := by rw [hraw]; simp
    rw [if_pos rfl, ← h1, ← h2]
  · rw [if_neg hp]
    have hlen : (trimPrefix r.URLPath pfx).toList.length < r.URLPath.toList.length := by
      rw [hr]
      exact trimPrefix_length_lt pfx rest hp
    have hlen2 : (trimPrefix r.URLRawPath pfx).toList.length < r.URLRawPath.toList.length := by
      rw [hraw]
      exact trimPrefix_length_lt pfx rawRest hp
    simp only [hlen, hlen2, or_true, and_self, if_true]
    rw [hr, hraw, trimPrefix_append, trimPrefix_append]

theorem trimPrefix_unchanged (s pfx : String) (hnot : ¬ pfx.toList <+: s.toList) :
    trimPrefix s pfx = s := by
  unfold trimPrefix
  have hq : ¬ (pfx.toList.isPrefixOf s.toList = true) := by
    rw [List.isPrefixOf_iff_prefix]
    exact hnot
  rw [if_neg hq]

theorem StripPrefix_notFound (pfx : String) (h : Handler HEvent) (r : Request)
    (hp : pfx ≠ "")
    (hnot : ¬ pfx.toList <+: r.URLPath.toList ∨
      (r.URLRawPath ≠ "" ∧ ¬ pfx.toList <+: r.URLRawPath.toList)) :
    StripPrefix pfx h r = [HEvent.notFound r] := by
  unfold StripPrefix
  rw [if_neg hp]
  rcases hnot with hnot | ⟨hne, hnot⟩
  · simp only [trimPrefix_unchanged _ _ hnot, lt_irrefl, false_and, if_false]
  · simp only [trimPrefix_unchanged _ _ hnot, lt_irrefl, hne, or_self, and_false, if_false]

theorem Serve_registers (env : Env) (dd : Devd) (hl : Listener) (ignores : List Regexp)
    (routeColl : RouteCollection)
    (hb : (boundListener env dd).2 = .ok hl)
    (hc : (compileIgnores env.regexpCompile dd.IgnoreLogs).2 = .ok ignores)
    (hr : (setRoutes env.routeSet [] dd.Routes).2 = .ok routeColl)
    (m : String) (route : Route) (hmem : (m, route) ∈ routeColl) :
    ServeEvent.muxHandle m
      (StripPrefix route.Path
        (devdHandler env.regexpMatchString route dd.LogHeaders ignores (livereloadEnabled dd)
          dd.Latency)) ∈ (Serve env dd).1 := by
  rw [Serve_of_routes_ok env dd hl ignores routeColl hb hc hr]
  obtain ⟨rest, hrest⟩ := serveRoutes_registers env (applyDefaults env dd)
    (decide (dd.CertFile ≠ "")) hl ignores routeColl
  obtain ⟨_, _, _, _, hlat, hlog, hlr, hw, _, _, _⟩ := applyDefaults_fields env dd
  have hen : livereloadEnabled (applyDefaults env dd) = livereloadEnabled dd := by
    unfold livereloadEnabled
    rw [hlr, hw]
  rw [hlat, hlog, hen] at hrest
  simp only [hrest]
  apply List.mem_append_right
  apply List.mem_append_left
  exact List.mem_map.2 ⟨(m, route), hmem, rfl⟩

/-- C3, as the code has it: once the route collection is built, `Serve`
registers for every route, under its match key, the handler
`http.StripPrefix(route.Path, devdHandler(...))`. A request whose path is
`route.Path` followed by `rest`, and whose raw path is empty or is
`route.Path` followed by `rawRest`, reaches the endpoint with the path `rest`
(and the raw path `rawRest`): the whole mount prefix, its closing `/`
included, is removed. A request whose path, or whose non-empty raw path, does
not begin with a non-empty `route.Path` is answered with `http.NotFound` and
never reaches the endpoint. -/
theorem Serve_registers_prefix_stripping_handlers (env : Env) (dd : Devd) (hl : Listener)
    (ignores : List Regexp) (routeColl : RouteCollection)
    (hb : (boundListener env dd).2 = .ok hl)
    (hc : (compileIgnores env.regexpCompile dd.IgnoreLogs).2 = .ok ignores)
    (hr : (setRoutes env.routeSet [] dd.Routes).2 = .ok routeColl)
    (m : String) (route : Route) (hmem : (m, route) ∈ routeColl) :
    ServeEvent.muxHandle m
      (StripPrefix route.Path
        (devdHandler env.regexpMatchString route dd.LogHeaders ignores (livereloadEnabled dd)
          dd.Latency)) ∈ (Serve env dd).1 ∧
    (∀ (r : Request) (rest : String), r.URLPath = route.Path ++ rest → r.URLRawPath = "" →
      (∃ ci sl, HEvent.endpointServe route.Endpoint ci sl dd.LogHeaders
          { r with URLPath := rest } ∈
        StripPrefix route.Path
          (devdHandler env.regexpMatchString route dd.LogHeaders ignores (livereloadEnabled dd)
            dd.Latency) r) ∧
      (∀ ep ci sl lh rq, HEvent.endpointServe ep ci sl lh rq ∈
        StripPrefix route.Path
          (devdHandler env.regexpMatchString route dd.LogHeaders ignores (livereloadEnabled dd)
            dd.Latency) r → rq.URLPath = rest)) ∧
    (∀ (r : Request) (rest rawRest : String), r.URLPath = route.Path ++ rest →
      r.URLRawPath = route.Path ++ rawRest →
      (∃ ci sl, HEvent.endpointServe route.Endpoint ci sl dd.LogHeaders
          { r with URLPath := rest, URLRawPath := rawRest } ∈
        StripPrefix route.Path
          (devdHandler env.regexpMatchString route dd.LogHeaders ignores (livereloadEnabled dd)
            dd.Latency) r) ∧
      (∀ ep ci sl lh rq, HEvent.endpointServe ep ci sl lh rq ∈
        StripPrefix route.Path
          (devdHandler env.regexpMatchString route dd.LogHeaders ignores (livereloadEnabled dd)
            dd.Latency) r → rq.URLPath = rest)) ∧
    (∀ r : Request, route.Path ≠ "" →
      (¬ route.Path.toList <+: r.URLPath.toList ∨
        (r.URLRawPath ≠ "" ∧ ¬ route.Path.toList <+: r.URLRawPath.toList)) →
      StripPrefix route.Path
        (devdHandler env.regexpMatchString route dd.LogHeaders ignores (livereloadEnabled dd)
          dd.Latency) r = [HEvent.notFound r]) := by
  have hcall : ∀ r2 : Request,
      (∃ ci sl, HEvent.endpointServe route.Endpoint ci sl dd.LogHeaders r2 ∈
        devdHandler env.regexpMatchString route dd.LogHeaders ignores (livereloadEnabled dd)
          dd.Latency r2) ∧
      (∀ ep ci sl lh rq, HEvent.endpointServe ep ci sl lh rq ∈
        devdHandler env.regexpMatchString route dd.LogHeaders ignores (livereloadEnabled dd)
          dd.Latency r2 → rq = r2) := by
    intro r2
    obtain ⟨sublog, htrace⟩ := devdHandler_trace env.regexpMatchString route dd.LogHeaders
      ignores (livereloadEnabled dd) dd.Latency r2
    rw [htrace]
    refine ⟨⟨if livereloadEnabled dd = true then injectLivereload else CopyInject.zero,
      sublog, by simp⟩, ?_⟩
    intro ep ci sl lh rq hin
    cases hlh : dd.LogHeaders <;> simp [hlh] at hin <;> exact hin.2.2.2.2
  refine ⟨Serve_registers env dd hl ignores routeColl hb hc hr m route hmem, ?_, ?_, ?_⟩
  · intro r rest hpath hraw
    rw [StripPrefix_strips _ _ r rest hpath hraw]
    refine ⟨(hcall _).1, ?_⟩
    intro ep ci sl lh rq hin
    rw [(hcall _).2 ep ci sl lh rq hin]
  · intro r rest rawRest hpath hraw
    rw [StripPrefix_strips_raw _ _ r rest rawRest hpath hraw]
    refine ⟨(hcall _).1, ?_⟩
    intro ep ci sl lh rq hin
    rw [(hcall _).2 ep ci sl lh rq hin]
  · intro r hp hnot
    exact StripPrefix_notFound _ _ r hp hnot

/-- C3 witness: for the route specification `static.test/assets=./public`
and the request `GET /assets/img.png`, the registered handler calls the
static endpoint with the path `img.png`; the request `GET /assets%2Fimg.png`
is answered with `http.NotFound`. -/
theorem Serve_registers_prefix_stripping_handlers_witness :
    (setRoutes sampleEnv.routeSet [] sampleOptions.Routes).2
      = .ok [("static.test/assets/", sampleRoute)] ∧
    (∃ ci sl, HEvent.endpointServe (Endpoint.StaticDir "./public") ci sl false
        { sampleRequest with URLPath := "img.png" } ∈
      StripPrefix "/assets/"
        (devdHandler sampleEnv.regexpMatchString sampleRoute false [] false 5) sampleRequest) ∧
    StripPrefix "/assets/"
        (devdHandler sampleEnv.regexpMatchString sampleRoute false [] false 5)
        encodedSlashRequest
      = [HEvent.notFound encodedSlashRequest] :=
  have hw := Serve_registers_prefix_stripping_handlers sampleEnv sampleOptions
    (Listener.tcp "127.0.0.1:8001" 8001) [] [("static.test/assets/", sampleRoute)]
    rfl rfl rfl "static.test/assets/" sampleRoute (by simp)
  ⟨rfl, (hw.2.1 sampleRequest "img.png" (by decide) (by decide)).1,
    hw.2.2.2 encodedSlashRequest (by decide) (Or.inr ⟨by decide, by decide⟩)⟩

/-- C3 counterexample: for the route specification
`static.test/assets=./public`, whose mount prefix is `/assets/`, and the
request `GET /assets/img.png` with `Host: static.test`, the handler that
`Serve` registers hands the path `img.png` to the static endpoint, not
`/img.png`. -/
theorem static_endpoint_path_has_no_leading_slash :
    parseRouteSpec "static.test/assets=./public" = some sampleRoute ∧
    (muxRegistrations (Serve sampleEnv sampleOptions).1).map Prod.fst
      = ["static.test/assets/"] ∧
    (muxRegistrations (Serve sampleEnv sampleOptions).1).map (fun kv => kv.2 sampleRequest)
      = [[HEvent.timerRequestHeaders, HEvent.sleep 5000000,
          HEvent.say Sublog.group "GET" "img.png",
          HEvent.endpointServe (Endpoint.StaticDir "./public") CopyInject.zero Sublog.group false
            { sampleRequest with URLPath := "img.png" },
          HEvent.sayTimer Sublog.group, HEvent.done Sublog.group]] ∧
    ({ sampleRequest with URLPath := "img.png" } : Request).URLPath ≠ "/img.png" := by
  refine ⟨by decide, by decide, by decide, by decide⟩

/-- C4: live-reload is on in `Serve` exactly when `LivereloadRoutes` is set
or `Watch` is not empty. Once the route collection is built, the handler
registered for every route is built by `devdHandler` with that flag, and the
endpoint handler it calls carries the rule `injectLivereload` when the flag
is on and the zero-valued rule when it is off. The rule `injectLivereload`
has a window of 5120 bytes and the payload
`<script src="/livereload.js"></script>`. -/
theorem Serve_livereload_injection_rule (env : Env) (dd : Devd) (hl : Listener)
    (ignores : List Regexp) (routeColl : RouteCollection)
    (hb : (boundListener env dd).2 = .ok hl)
    (hc : (compileIgnores env.regexpCompile dd.IgnoreLogs).2 = .ok ignores)
    (hr : (setRoutes env.routeSet [] dd.Routes).2 = .ok routeColl) :
    (livereloadEnabled dd = true ↔ (dd.LivereloadRoutes = true ∨ dd.Watch ≠ [])) ∧
    (∀ m route, (m, route) ∈ routeColl →
      ServeEvent.muxHandle m
        (StripPrefix route.Path
          (devdHandler env.regexpMatchString route dd.LogHeaders ignores (livereloadEnabled dd)
            dd.Latency)) ∈ (Serve env dd).1 ∧
      ∀ r : Request,
        (∃ sl, HEvent.endpointServe route.Endpoint
            (if livereloadEnabled dd = true then injectLivereload else CopyInject.zero) sl
            dd.LogHeaders r ∈
          devdHandler env.regexpMatchString route dd.LogHeaders ignores (livereloadEnabled dd)
            dd.Latency r) ∧
        (∀ ep ci sl lh rq, HEvent.endpointServe ep ci sl lh rq ∈
          devdHandler env.regexpMatchString route dd.LogHeaders ignores (livereloadEnabled dd)
            dd.Latency r →
          ci = (if livereloadEnabled dd = true then injectLivereload else CopyInject.zero))) ∧
    injectLivereload.Within = 5120 ∧
    injectLivereload.Payload = "<script src=\"/livereload.js\"></script>" ∧
    CopyInject.zero = { Within := 0, Marker := none, Payload := "" } := by
  refine ⟨?_, ?_, rfl, rfl, rfl⟩
  · unfold livereloadEnabled
    cases hw : dd.Watch <;> simp
  · intro m route hmem
    refine ⟨Serve_registers env dd hl ignores routeColl hb hc hr m route hmem, ?_⟩
    intro r
    obtain ⟨sublog, htrace⟩ := devdHandler_trace env.regexpMatchString route dd.LogHeaders
      ignores (livereloadEnabled dd) dd.Latency r
    rw [htrace]
    refine ⟨⟨sublog, by simp⟩, ?_⟩
    intro ep ci sl lh rq hin
    cases hlh : dd.LogHeaders <;> simp [hlh] at hin <;> rw [hin.2.1]

/-- C4 witness: with a watched path, live-reload is on and the endpoint of
the sample route is called with the rule `injectLivereload`. -/
theorem Serve_livereload_injection_rule_witness :
    (setRoutes sampleEnv.routeSet [] watchOptions.Routes).2
      = .ok [("static.test/assets/", sampleRoute)] ∧
    livereloadEnabled watchOptions = true ∧
    ∃ sl, HEvent.endpointServe (Endpoint.StaticDir "./public") injectLivereload sl false
        sampleRequest ∈
      devdHandler sampleEnv.regexpMatchString sampleRoute false [] true 5 sampleRequest :=
  ⟨rfl, rfl,
    (((Serve_livereload_injection_rule sampleEnv watchOptions
      (Listener.tcp "127.0.0.1:8001" 8001) [] [("static.test/assets/", sampleRoute)]
      rfl rfl rfl).2.1 "static.test/assets/" sampleRoute (by simp)).2 sampleRequest).1⟩

end Cli
